import Mathlib

/-!
Shallow embedding of the Slack reaction-mirror tool
(`src/tools/slack-reaction-mirror/src/slack-reaction-mirror.ts` and
`slack-reaction-mirror-watch.ts`): the reconciliation core (emoji
canonicalization, skip rules, blocklist rules), the per-message mirroring and
default-reaction routines, the live-watch event handler, the backfill
pagination loop, and the `--oldest`/`--latest` time parsing.

Strings are modelled as Lean `String`/`List Char`; JavaScript objects passed
around as `unknown` are modelled by the inductive `JsonVal`; remote calls are
modelled by explicit environment functions supplying their results.

Regexes are embedded with the semantics of their written source text.  In a
JavaScript regex literal, `\\d` and `\\s` denote an escaped backslash
followed by a literal letter — not a character class — so the source's
`/::skin-tone-\\d+/g`, `/^\\d+(\\.\\d+)?$/`, `/^\\d{4}-\\d{2}-\\d{2}$/` and
`/\\s+/g` only ever match text containing backslashes.  The regexes built
from template strings (`new RegExp` with a backtick string, where `\\s` is a
string escape producing `\s`) do denote the whitespace class and are
embedded as such.
-/

/-- JavaScript whitespace as used by `\s`, `String.prototype.trim` (ASCII part). -/
def isWsChar (c : Char) : Bool :=
  c = ' ' || c = '\t' || c = '\n' || c = '\r' || c = '\x0b' || c = '\x0c'

/-- `String.prototype.trim` on a character list. -/
def trimChars (cs : List Char) : List Char :=
  ((cs.dropWhile isWsChar).reverse.dropWhile isWsChar).reverse

/-- `String.prototype.trim`. -/
def strTrim (s : String) : String := ⟨trimChars s.data⟩

/-- `String.prototype.toLowerCase` (ASCII part). -/
def strToLower (s : String) : String := ⟨s.data.map Char.toLower⟩

/-- Does `cs` start with `p` (character-exact)? -/
def startsWithChars : List Char → List Char → Bool
  | [], _ => true
  | _ :: _, [] => false
  | p :: ps, c :: cs => p = c && startsWithChars ps cs

/-- `String.prototype.includes` on character lists (substring occurrence). -/
def containsSub (needle : List Char) : List Char → Bool
  | [] => startsWithChars needle []
  | c :: cs => startsWithChars needle (c :: cs) || containsSub needle cs

/-- `haystack.includes(needle)` as in the source's substring checks. -/
def strIncludes (haystack needle : String) : Bool :=
  containsSub needle.data haystack.data

/-- Strip a literal character prefix: `some rest` iff `cs = p ++ rest`. -/
def dropPrefixChars : List Char → List Char → Option (List Char)
  | [], cs => some cs
  | _ :: _, [] => none
  | p :: ps, c :: cs => if p = c then dropPrefixChars ps cs else none

/-- Split a leading run of one repeated literal character off a list (the
greedy `X+` of a regex on a literal `X`). -/
def splitRun (t : Char) : List Char → List Char × List Char
  | [] => ([], [])
  | c :: cs =>
    if c = t then
      let p := splitRun t cs
      (c :: p.1, p.2)
    else ([], c :: cs)

/-- Match the source's `TAG\\d+` pattern at the head of `cs`: inside a
JavaScript regex literal, `\\d` is an escaped backslash followed by a
literal `d`, so the pattern is the literal `tag` text (which ends in one
backslash) followed by one or more literal `d` characters (taken greedily);
returns the remainder. -/
def matchToneAt (tag cs : List Char) : Option (List Char) :=
  match dropPrefixChars tag cs with
  | none => none
  | some rest =>
    let p := splitRun 'd' rest
    if p.1.isEmpty then none else some p.2

/-- One global-replace pass of the `TAG\\d+` pattern by the empty string
(leftmost, non-overlapping matches), with explicit fuel. -/
def stripToneGo (tag : List Char) : Nat → List Char → List Char
  | 0, cs => cs
  | _ + 1, [] => []
  | n + 1, c :: cs =>
    match matchToneAt tag (c :: cs) with
    | some rest => stripToneGo tag n rest
    | none => c :: stripToneGo tag n cs

/-- `s.replace(/TAG\\d+/g, "")`. -/
def stripTone (tag : List Char) (cs : List Char) : List Char :=
  stripToneGo tag cs.length cs

/-- The text the regex literal `/::skin-tone-\\d+/g` matches before its
`d+`: the characters `::skin-tone-` and then one backslash (`\\` in a regex
literal escapes a backslash; it does not make a `\d` digit class). -/
def tagDouble : List Char :=
  [':', ':', 's', 'k', 'i', 'n', '-', 't', 'o', 'n', 'e', '-', '\\']

/-- The text the regex literal `/:skin-tone-\\d+/g` matches before its
`d+`. -/
def tagSingle : List Char :=
  [':', 's', 'k', 'i', 'n', '-', 't', 'o', 'n', 'e', '-', '\\']

/-- `canonicalizeReactionName`: apply the two written replaces.  Because the
source regexes are `/::skin-tone-\\d+/g` and `/:skin-tone-\\d+/g` — an
escaped backslash followed by a literal `d`, not a digit class — they only
remove text of the shape `::skin-tone-\dd…d`, and the function is the
identity on every name without a backslash, skin-tone variants such as
`raised_hands::skin-tone-3` included. -/
def canonicalizeReactionName (name : String) : String :=
  ⟨stripTone tagSingle (stripTone tagDouble name.data)⟩

/-- `normalizeReactionName`: trim and lowercase. -/
def normalizeReactionName (name : String) : String :=
  strToLower (strTrim name)

example : canonicalizeReactionName "raised_hands::skin-tone-3" =
  "raised_hands::skin-tone-3" := by decide
example : canonicalizeReactionName "raised_hands" = "raised_hands" := by decide
example : canonicalizeReactionName "x::skin-tone-\\ddd" = "x" := by decide
example : normalizeReactionName "  Rocket " = "rocket" := by decide

/-- C1: the code bug demonstrated.  The written regexes
`/::skin-tone-\\d+/g` and `/:skin-tone-\\d+/g` match an escaped backslash
followed by literal `d`s, never a digit, so `canonicalizeReactionName`
leaves the skin-tone variant unchanged: the variant and the plain name do
not canonicalize to the same base name, contradicting the claim. -/
theorem C1_skin_tone_not_stripped :
    canonicalizeReactionName "raised_hands::skin-tone-3" =
      "raised_hands::skin-tone-3" ∧
    canonicalizeReactionName "raised_hands" = "raised_hands" ∧
    canonicalizeReactionName "raised_hands::skin-tone-3" ≠
      canonicalizeReactionName "raised_hands" :=
  ⟨by decide, by decide, by decide⟩

/-- JavaScript values as passed around as `unknown` (message payloads).
`null` covers both `null` and `undefined`; `num`/`bool` stand for the
remaining non-object primitives. -/
inductive JsonVal where
  | str (s : String)
  | num (n : Int)
  | bool (b : Bool)
  | null
  | arr (xs : List JsonVal)
  | obj (fields : List (String × JsonVal))

/-- Property access `v[k]` on an object (first binding wins, as JS keys are
unique); `none` for non-objects or missing keys. -/
def getField (v : JsonVal) (k : String) : Option JsonVal :=
  match v with
  | .obj fields =>
    match fields.find? (fun p => p.1 = k) with
    | some p => some p.2
    | none => none
  | _ => none

/-- Property access yielding a string, `none` when absent or not a string. -/
def strField (v : JsonVal) (k : String) : Option String :=
  match getField v k with
  | some (.str s) => some s
  | _ => none

/-- JS truthiness for an optional string field (`undefined` and `""` are falsy). -/
def truthyStr : Option String → Option String
  | some s => if s = "" then none else some s
  | none => none

/-- `collectStrings(value, out, {maxDepth, maxStrings})`: walk a value,
appending every string encountered to `out`; stop at the string cap, at
`null`/`undefined`, at non-objects, and below `maxDepth` levels.  The
recursion is by the depth budget, exactly as in the source, where every
recursive call passes `maxDepth - 1`. -/
def collectStrings (v : JsonVal) (out : List String) (maxDepth maxStrings : Nat) :
    List String :=
  if maxStrings ≤ out.length then out
  else
    match v, maxDepth with
    | .null, _ => out
    | .str s, _ => out ++ [s]
    | .num _, _ => out
    | .bool _, _ => out
    | .arr _, 0 => out
    | .obj _, 0 => out
    | .arr xs, d + 1 =>
      xs.foldl (fun acc x => collectStrings x acc d maxStrings) out
    | .obj fields, d + 1 =>
      fields.foldl (fun acc p => collectStrings p.2 acc d maxStrings) out

/-- `messageContentStrings`: all strings of the message value, depth ≤ 8,
at most 600 strings. -/
def messageContentStrings (message : JsonVal) : List String :=
  collectStrings message [] 8 600

/-- Prune a value below a given depth, replacing deeper arrays/objects by
empty ones.  Used to state that `collectStrings` never inspects the tree
below its depth budget. -/
def truncDepth : Nat → JsonVal → JsonVal
  | _, .str s => .str s
  | _, .num n => .num n
  | _, .bool b => .bool b
  | _, .null => .null
  | 0, .arr _ => .arr []
  | 0, .obj _ => .obj []
  | d + 1, .arr xs => .arr (xs.map (truncDepth d))
  | d + 1, .obj fields => .obj (fields.map (fun p => (p.1, truncDepth d p.2)))

/-- Case-insensitive character equality, as under the regex `i` flag (ASCII). -/
def ciEq (a b : Char) : Bool := a.toLower = b.toLower

/-- Strip a literal pattern case-insensitively. -/
def dropPrefixCI : List Char → List Char → Option (List Char)
  | [], cs => some cs
  | _ :: _, [] => none
  | p :: ps, c :: cs => if ciEq p c then dropPrefixCI ps cs else none

/-- Regex `\s*` followed by a continuation: try the continuation after each
prefix of the leading whitespace run (backtracking star). -/
def wsStarThen (p : List Char → Bool) : List Char → Bool
  | [] => p []
  | c :: cs => p (c :: cs) || (isWsChar c && wsStarThen p cs)

/-- Regex `@?` followed by a continuation. -/
def optAtThen (p : List Char → Bool) : List Char → Bool
  | [] => p []
  | c :: cs => p (c :: cs) || (c = '@' && p cs)

/-- JS regex word character (`\w`). -/
def isWordChar (c : Char) : Bool := c.isAlphanum || c = '_'

/-- Word boundary `\b` between a previous character (none at string start)
and the remaining input. -/
def boundaryAt (prev : Option Char) (rest : List Char) : Bool :=
  let pw := match prev with | some c => isWordChar c | none => false
  let nw := match rest with | c :: _ => isWordChar c | [] => false
  pw != nw

/-- Match `from\s*:\s*<@USERID>` (case-insensitive) at the head of `cs`. -/
def mentionAt (userId : List Char) (cs : List Char) : Bool :=
  match dropPrefixCI ['f', 'r', 'o', 'm'] cs with
  | none => false
  | some r1 =>
    wsStarThen
      (fun r2 =>
        match r2 with
        | ':' :: r3 =>
          wsStarThen
            (fun r4 =>
              match dropPrefixCI ('<' :: '@' :: userId) r4 with
              | some ('>' :: _) => true
              | _ => false)
            r3
        | _ => false)
      r1

/-- Match a pattern at some position of `cs`. -/
def anyPosition (p : List Char → Bool) : List Char → Bool
  | [] => p []
  | c :: cs => p (c :: cs) || anyPosition p cs

/-- `matchesWorkflowFromLineMention(strings, userId)`: some string contains
`from\s*:\s*<@userId>` (case-insensitive). -/
def matchesWorkflowFromLineMention (strings : List String) (userId : String) : Bool :=
  strings.any (fun s => anyPosition (mentionAt userId.data) s.data)

/-- Match an alias tail `ALIAS\b` (case-insensitive) at the head of `cs`,
given the character just before the current position. -/
def aliasTailAt (al : List Char) (prev : Option Char) (cs : List Char) : Bool :=
  match al, cs with
  | [], rest => boundaryAt prev rest
  | _ :: _, [] => false
  | a :: as', c :: rest => ciEq a c && aliasTailAt as' (some c) rest

/-- Match `from\s*:\s*@?\s*ALIAS\b` (case-insensitive) at the head of `cs`.
The `\s*` and `@?` pieces backtrack as in the regex. -/
def aliasAt (al : List Char) (cs : List Char) : Bool :=
  match dropPrefixCI ['f', 'r', 'o', 'm'] cs with
  | none => false
  | some r1 =>
    wsStarThen
      (fun r2 =>
        match r2 with
        | ':' :: r3 =>
          wsStarThen
            (fun r4 =>
              optAtThen
                (fun r5 =>
                  wsStarThen
                    (fun r6 =>
                      -- the character before the alias is ':', '@' or
                      -- whitespace here, never a word character, so the
                      -- boundary state is that of a non-word predecessor
                      aliasTailAt al none r6)
                    r5)
                r4)
            r3
        | _ => false)
      r1

/-- `matchesWorkflowFromLine(strings, aliases)`. -/
def matchesWorkflowFromLine (strings : List String) (aliases : List String) : Bool :=
  aliases.any (fun al =>
    strings.any (fun s => anyPosition (aliasAt al.data) s.data))

/-- Replace the curly quotes `’` `‘` by `'` (the `[’‘]` regex class). -/
def quoteFold (c : Char) : Char :=
  if c = '’' || c = '‘' then '\'' else c

/-- The global replace `replace(/\\s+/g, " ")` of the source, with explicit
fuel: in a regex literal `\\s` is an escaped backslash followed by a literal
`s`, so each leftmost match of one backslash followed by a greedy run of `s`
characters becomes a single space; ordinary whitespace is left untouched. -/
def collapseWsGo : Nat → List Char → List Char
  | 0, cs => cs
  | _ + 1, [] => []
  | n + 1, c :: cs =>
    if c = '\\' then
      let p := splitRun 's' cs
      if p.1.isEmpty then c :: collapseWsGo n cs
      else ' ' :: collapseWsGo n p.2
    else c :: collapseWsGo n cs

/-- `normalizeForSubstringMatch`: lowercase, fold smart quotes, apply the
written `\\s+` replace, trim. -/
def normalizeForSubstringMatch (input : String) : String :=
  let cs := (input.data.map Char.toLower).map quoteFold
  ⟨trimChars (collapseWsGo cs.length cs)⟩

/-- `isStandupReminderMessage`: the joined, normalized content contains one
of the fixed reminder phrases. -/
def isStandupReminderMessage (strings : List String) : Bool :=
  let haystack := normalizeForSubstringMatch (String.intercalate "\n" strings)
  strIncludes haystack "daily stand-up meeting reminder" ||
  strIncludes haystack "don't forget to post your update in thread" ||
  strIncludes haystack "dont forget to post your update in thread" ||
  strIncludes haystack "fill form from slack shortcut"

/-- `SkipConfig`: the per-run message skip rules.  The configured skip regex
is an arbitrary runtime regular expression, modelled as an opaque test
function. -/
structure SkipConfig where
  skipUserId : String
  skipUserAliases : List String
  skipMessageRegex : Option (String → Bool)
  skipMessageContains : List String
  debugSkip : Bool

/-- `ReactionFilterConfig`: the per-run emoji blocklist.  The `Set` of exact
names is modelled as a list with membership lookup; the configured regex is
an opaque test function. -/
structure ReactionFilterConfig where
  blacklistExact : List String
  blacklistContains : List String
  blacklistRegex : Option (String → Bool)
  debug : Bool

/-- `isReactionBlocked`: normalized name in the exact set, or containing a
blocked substring, or matching the blocklist regex. -/
def isReactionBlocked (name : String) (cfg : ReactionFilterConfig) : Bool :=
  let normalized := normalizeReactionName name
  cfg.blacklistExact.contains normalized ||
  cfg.blacklistContains.any (fun s => strIncludes normalized s) ||
  (match cfg.blacklistRegex with
   | some re => re normalized
   | none => false)

/-- `shouldSkipMessage`: `some reason` when the message must be skipped.
The checks run in source order: author id, standup reminder, workflow
`from:` mention, workflow `from:` alias, configured substrings, configured
regex. -/
def shouldSkipMessage (message : JsonVal) (cfg : SkipConfig) : Option String :=
  let userMatches : Bool :=
    match getField message "user" with
    | some (.str u) => u == cfg.skipUserId
    | _ => false
  if userMatches then some "author_user_id"
  else
    let strings := messageContentStrings message
    if isStandupReminderMessage strings then some "standup_reminder"
    else if matchesWorkflowFromLineMention strings cfg.skipUserId then
      some "workflow_from_line_user_id"
    else if matchesWorkflowFromLine strings cfg.skipUserAliases then
      some "workflow_from_line_alias"
    else if cfg.skipMessageContains.any (fun needle =>
        strings.any (fun s => strIncludes (strToLower s) (strToLower needle))) then
      some "skip_contains"
    else
      match cfg.skipMessageRegex with
      | some re => if strings.any (fun s => re s) then some "skip_regex" else none
      | none => none

/-- The `users` array of a reaction entry (`?? []`; non-string items can
never equal a user id and are dropped). -/
def jsonStrList : Option JsonVal → List String
  | some (.arr xs) =>
    xs.filterMap (fun v => match v with | .str s => some s | _ => none)
  | _ => []

/-- The reaction entries of a fetched message (`message?.reactions ?? []`):
each entry's optional `name` and its `users ?? []`. -/
def jsonReactions (msg : JsonVal) : List (Option String × List String) :=
  match getField msg "reactions" with
  | some (.arr rs) => rs.map (fun r => (strField r "name", jsonStrList (getField r "users")))
  | _ => []

/-- `message.reactions && message.reactions.length > 0`. -/
def hasNonemptyReactions (msg : JsonVal) : Bool :=
  match getField msg "reactions" with
  | some (.arr (_ :: _)) => true
  | _ => false

/-- Outcome of one `reactions.add` call (after the rate-limit retry
wrapper): success, or a Slack API error with its optional `data.error`
code. -/
inductive AddResult where
  | success
  | apiError (code : Option String)

/-- JS `Set` insertion: append if not yet present (preserves first-insertion
iteration order). -/
def insertUnique (l : List String) (x : String) : List String :=
  if x ∈ l then l else l ++ [x]

/-- One step of the first loop of `mirrorReactionsForMessage`: record the
entry's canonical name, and record it among the authed user's canonical
reactions when its `users` contain the authed user. -/
def buildStep (authedUserId : String) (acc : List String × List String)
    (r : Option String × List String) : List String × List String :=
  match truthyStr r.1 with
  | none => acc
  | some n =>
    let canonical := canonicalizeReactionName n
    (insertUnique acc.1 canonical,
     if r.2.contains authedUserId then insertUnique acc.2 canonical else acc.2)

/-- The first loop of `mirrorReactionsForMessage`: the insertion-ordered set
of canonical names and the set of canonical names already carrying the
authed user's reaction. -/
def buildCanonicalSets (authedUserId : String)
    (reactions : List (Option String × List String)) : List String × List String :=
  reactions.foldl (buildStep authedUserId) ([], [])

/-- Accumulated outcome of an add loop.  `actions` lists the emoji names for
which an add action was emitted (attempted, or logged in dry-run), in order;
`err` is the code of an uncaught error that aborted the loop, if any (the
counters are then the ones lost to the thrown exception). -/
structure LoopOut where
  added : Nat
  skippedAlreadyReacted : Nat
  skippedBlacklisted : Nat
  actions : List String
  err : Option (Option String)

/-- The second loop of `mirrorReactionsForMessage`, over the canonical
names: skip names the authed user already reacted with, skip blocked names,
otherwise emit the add (counting `already_reacted` errors as skips and
rethrowing every other error). -/
def mirrorLoop (addRes : String → AddResult) (filterCfg : ReactionFilterConfig)
    (dryRun : Bool) (hasAuthed : List String) : List String → LoopOut
  | [] => ⟨0, 0, 0, [], none⟩
  | c :: cs =>
    if c ∈ hasAuthed then
      let r := mirrorLoop addRes filterCfg dryRun hasAuthed cs
      { r with skippedAlreadyReacted := r.skippedAlreadyReacted + 1 }
    else if isReactionBlocked c filterCfg then
      let r := mirrorLoop addRes filterCfg dryRun hasAuthed cs
      { r with skippedBlacklisted := r.skippedBlacklisted + 1 }
    else if dryRun then
      let r := mirrorLoop addRes filterCfg dryRun hasAuthed cs
      { r with added := r.added + 1, actions := c :: r.actions }
    else
      match addRes c with
      | .success =>
        let r := mirrorLoop addRes filterCfg dryRun hasAuthed cs
        { r with added := r.added + 1, actions := c :: r.actions }
      | .apiError code =>
        if code = some "already_reacted" then
          let r := mirrorLoop addRes filterCfg dryRun hasAuthed cs
          { r with skippedAlreadyReacted := r.skippedAlreadyReacted + 1,
                   actions := c :: r.actions }
        else ⟨0, 0, 0, [c], some code⟩

/-- Result counters of `mirrorReactionsForMessage`, plus the emitted add
actions. -/
structure MirrorResult where
  added : Nat
  skippedAlreadyReacted : Nat
  skippedOwnMessage : Nat
  skippedBlacklisted : Nat
  actions : List String

/-- `mirrorReactionsForMessage`: given the re-fetched message (`none` when
`reactions.get` returned no message), decide which canonical emoji to add.
Returns the result and the code of an uncaught error, if one was thrown. -/
def mirrorReactionsForMessage (fetched : Option JsonVal) (authedUserId : String)
    (skipCfg : SkipConfig) (filterCfg : ReactionFilterConfig) (dryRun : Bool)
    (addRes : String → AddResult) : MirrorResult × Option (Option String) :=
  match fetched with
  | none => (⟨0, 0, 1, 0, []⟩, none)
  | some message =>
    if (shouldSkipMessage message skipCfg).isSome then (⟨0, 0, 1, 0, []⟩, none)
    else
      let reactions := jsonReactions message
      if reactions.isEmpty then (⟨0, 0, 0, 0, []⟩, none)
      else
        let sets := buildCanonicalSets authedUserId reactions
        let lp := mirrorLoop addRes filterCfg dryRun sets.2 sets.1
        (⟨lp.added, lp.skippedAlreadyReacted, 0, lp.skippedBlacklisted, lp.actions⟩, lp.err)

/-- The loop of `addDefaultReactionsForMessage` over the configured default
names. -/
def defaultsLoop (addRes : String → AddResult) (filterCfg : ReactionFilterConfig)
    (dryRun : Bool) : List String → LoopOut
  | [] => ⟨0, 0, 0, [], none⟩
  | n :: ns =>
    if isReactionBlocked n filterCfg then
      let r := defaultsLoop addRes filterCfg dryRun ns
      { r with skippedBlacklisted := r.skippedBlacklisted + 1 }
    else if dryRun then
      let r := defaultsLoop addRes filterCfg dryRun ns
      { r with added := r.added + 1, actions := n :: r.actions }
    else
      match addRes n with
      | .success =>
        let r := defaultsLoop addRes filterCfg dryRun ns
        { r with added := r.added + 1, actions := n :: r.actions }
      | .apiError code =>
        if code = some "already_reacted" then
          let r := defaultsLoop addRes filterCfg dryRun ns
          { r with skippedAlreadyReacted := r.skippedAlreadyReacted + 1,
                   actions := n :: r.actions }
        else ⟨0, 0, 0, [n], some code⟩

/-- Result counters of `addDefaultReactionsForMessage`, plus the emitted add
actions. -/
structure DefaultResult where
  added : Nat
  skippedAlreadyReacted : Nat
  skippedOwnMessage : Nat
  skippedHasReactions : Nat
  skippedBlacklisted : Nat
  actions : List String

/-- `addDefaultReactionsForMessage`: add the configured default reactions to
a message that has none, unless the message is skipped. -/
def addDefaultReactionsForMessage (fetched : Option JsonVal)
    (defaultReactionNames : List String) (skipCfg : SkipConfig)
    (filterCfg : ReactionFilterConfig) (dryRun : Bool)
    (addRes : String → AddResult) : DefaultResult × Option (Option String) :=
  match fetched with
  | none => (⟨0, 0, 0, 0, 0, []⟩, none)
  | some message =>
    if (shouldSkipMessage message skipCfg).isSome then (⟨0, 0, 1, 0, 0, []⟩, none)
    else if hasNonemptyReactions message then (⟨0, 0, 0, 1, 0, []⟩, none)
    else
      let lp := defaultsLoop addRes filterCfg dryRun defaultReactionNames
      (⟨lp.added, lp.skippedAlreadyReacted, 0, 0, lp.skippedBlacklisted, lp.actions⟩, lp.err)

/-- `BUILTIN_DEFAULT_REACTIONS`. -/
def builtinDefaultReactions : List String :=
  ["rocket", "raised_hands", "saluting_face", "v"]

/-- `filter((v, i, arr) => arr.indexOf(v) === i)`: keep-first deduplication. -/
def dedupKeepFirst (l : List String) : List String :=
  l.foldl insertUnique []

/-- The computation of `defaultReactionNames` in `main`: the environment
list when non-empty, else the builtin set, deduplicated. -/
def computeDefaultReactionNames (envList : List String) : List String :=
  dedupKeepFirst (if envList.isEmpty then builtinDefaultReactions else envList)

/-- JavaScript truthiness of a value. -/
def jsTruthy : JsonVal → Bool
  | .str s => s ≠ ""
  | .num n => n ≠ 0
  | .bool b => b
  | .null => false
  | .arr _ => true
  | .obj _ => true

/-- What the live watcher's `events_api` callback did with one event. -/
inductive WatchOutcome where
  | ignored
  | blockedFilter
  | skipItemUser
  | noMessage
  | skippedMessage (reason : String)
  | alreadyReacted
  | added (name : String)
  | caughtAlreadyReacted (name : String)
  | caughtTooMany (name : String)
  | loggedError (name : String) (code : Option String)

/-- The classification of one `reactions.add` outcome in the watcher's
`try`/`catch`: success logs the add; `already_reacted` is treated as done;
`too_many_reactions` is logged and skipped; every other failure is logged
with its context (none of them escapes the handler). -/
def addCallOutcome (canonical : String) : AddResult → WatchOutcome
  | .success => .added canonical
  | .apiError code =>
    if code = some "already_reacted" then .caughtAlreadyReacted canonical
    else if code = some "too_many_reactions" then .caughtTooMany canonical
    else .loggedError canonical code

/-- The `events_api` handler of `slack-reaction-mirror-watch.ts` (after the
transport `ack`): filter to `reaction_added` message events, drop own and
out-of-channel events, apply the blocklist, then the author skip, re-fetch
the message, apply the message skip rules and the already-reacted check, and
finally issue the single `reactions.add` call, catching `already_reacted`
and `too_many_reactions` and logging any other failure.  Returns the
outcome and the list of `reactions.add` calls issued. -/
def handleReactionEvent (authedUserId : String) (filterChannelId : Option String)
    (skipCfg : SkipConfig) (filterCfg : ReactionFilterConfig)
    (reactGet : String → String → Option JsonVal) (addRes : String → AddResult)
    (body : JsonVal) : WatchOutcome × List String :=
  match getField body "event" with
  | none => (.ignored, [])
  | some ev =>
    if !(jsTruthy ev) then (.ignored, [])
    else if strField ev "type" ≠ some "reaction_added" then (.ignored, [])
    else
      match getField ev "item" with
      | none => (.ignored, [])
      | some item =>
        if !(jsTruthy item) then (.ignored, [])
        else if strField item "type" ≠ some "message" then (.ignored, [])
        else
          match truthyStr (strField item "channel"), truthyStr (strField item "ts"),
              truthyStr (strField ev "reaction"), truthyStr (strField ev "user") with
          | some channel, some ts, some reaction, some reactingUser =>
            if reactingUser = authedUserId then (.ignored, [])
            else if (match filterChannelId with
                     | some f => channel != f
                     | none => false) then (.ignored, [])
            else
              let canonical := canonicalizeReactionName reaction
              if isReactionBlocked reaction filterCfg ||
                  isReactionBlocked canonical filterCfg then (.blockedFilter, [])
              else if (match strField ev "item_user" with
                       | some a => a == skipCfg.skipUserId
                       | none => false) then (.skipItemUser, [])
              else
                match reactGet channel ts with
                | none => (.noMessage, [])
                | some message =>
                  match shouldSkipMessage message skipCfg with
                  | some reason => (.skippedMessage reason, [])
                  | none =>
                    let already := (jsonReactions message).any (fun r =>
                      match truthyStr r.1 with
                      | none => false
                      | some n =>
                        canonicalizeReactionName n == canonical &&
                        r.2.contains authedUserId)
                    if already then (.alreadyReacted, [])
                    else (addCallOutcome canonical (addRes canonical), [canonical])
          | _, _, _, _ => (.ignored, [])

/-- The backfill command options used by the scan loop in `main`. -/
structure BackfillArgs where
  includeThreadReplies : Bool
  addDefaultReactions : Bool
  dryRun : Bool
  maxMessages : Option Nat
  maxReactionsAdds : Option Nat
  defaultReactionNames : List String

/-- The remote service as the backfill scan observes it: the successive
`conversations.history` pages (the next-page cursor is present exactly when
further pages follow), the `reactions.get` result per message timestamp, the
flattened `conversations.replies` result per thread, and the outcome of each
`reactions.add` call. -/
structure BackfillEnv where
  pages : List (List JsonVal)
  reactGet : String → Option JsonVal
  threadReplies : String → List JsonVal
  addRes : String → String → AddResult

/-- The mutable state of `main`'s scan loop.  `cursorCleared` models the
`cursor = undefined` assignments of the budget breaks; `log` records every
emitted add action as (message ts, emoji name); `pageStarts` records the
(processedMessages, totalAdds) counters at the moment of each history page
fetch. -/
structure BackfillState where
  processedMessages : Nat
  totalAdds : Nat
  totalSkipped : Nat
  totalSkippedOwn : Nat
  totalSkippedHasReactions : Nat
  totalSkippedBlacklisted : Nat
  cursorCleared : Bool
  log : List (String × String)
  pageStarts : List (Nat × Nat)

/-- `processedMessages > args.maxMessages`. -/
def msgBudgetExceeded (args : BackfillArgs) (processed : Nat) : Bool :=
  match args.maxMessages with
  | some m => decide (m < processed)
  | none => false

/-- `totalAdds >= args.maxReactionsAdds`. -/
def addBudgetReached (args : BackfillArgs) (totalAdds : Nat) : Bool :=
  match args.maxReactionsAdds with
  | some m => decide (m ≤ totalAdds)
  | none => false

/-- Record the add actions emitted for one message in the scan log. -/
def logActions (st : BackfillState) (ts : String) (actions : List String) :
    BackfillState :=
  { st with log := st.log ++ actions.map (fun n => (ts, n)) }

/-- Accumulate a `mirrorReactionsForMessage` result into the counters. -/
def accMirror (st : BackfillState) (ts : String) (r : MirrorResult) : BackfillState :=
  { logActions st ts r.actions with
    totalAdds := st.totalAdds + r.added,
    totalSkipped := st.totalSkipped + r.skippedAlreadyReacted,
    totalSkippedOwn := st.totalSkippedOwn + r.skippedOwnMessage,
    totalSkippedBlacklisted := st.totalSkippedBlacklisted + r.skippedBlacklisted }

/-- Accumulate an `addDefaultReactionsForMessage` result into the counters. -/
def accDefault (st : BackfillState) (ts : String) (r : DefaultResult) : BackfillState :=
  { logActions st ts r.actions with
    totalAdds := st.totalAdds + r.added,
    totalSkipped := st.totalSkipped + r.skippedAlreadyReacted,
    totalSkippedOwn := st.totalSkippedOwn + r.skippedOwnMessage,
    totalSkippedHasReactions := st.totalSkippedHasReactions + r.skippedHasReactions,
    totalSkippedBlacklisted := st.totalSkippedBlacklisted + r.skippedBlacklisted }

/-- `message.reply_count && message.reply_count > 0`. -/
def replyCountPos (m : JsonVal) : Bool :=
  match getField m "reply_count" with
  | some (.num n) => decide (0 < n)
  | _ => false

/-- The thread-reply loop of `main` (both copies of it are textually
identical in the source): for each reply, skip the thread parent, apply the
skip rules, then either mirror its reactions or (in default mode) add
defaults; after each processed reply, a budget check may clear the cursor
and stop the loop.  Returns the state and a thrown error, if any. -/
def processReplies (env : BackfillEnv) (args : BackfillArgs) (authedUserId : String)
    (skipCfg : SkipConfig) (filterCfg : ReactionFilterConfig) (parentTs : String) :
    List JsonVal → BackfillState → BackfillState × Option (Option String)
  | [], st => (st, none)
  | reply :: rest, st =>
    match truthyStr (strField reply "ts") with
    | none => processReplies env args authedUserId skipCfg filterCfg parentTs rest st
    | some rts =>
      if rts = parentTs then
        processReplies env args authedUserId skipCfg filterCfg parentTs rest st
      else if (shouldSkipMessage reply skipCfg).isSome then
        processReplies env args authedUserId skipCfg filterCfg parentTs rest
          { st with totalSkippedOwn := st.totalSkippedOwn + 1 }
      else if !(hasNonemptyReactions reply) then
        if args.addDefaultReactions then
          let res := addDefaultReactionsForMessage (env.reactGet rts)
            args.defaultReactionNames skipCfg filterCfg args.dryRun (env.addRes rts)
          match res.2 with
          | some e => (logActions st rts res.1.actions, some e)
          | none =>
            let st' := accDefault st rts res.1
            if addBudgetReached args st'.totalAdds then
              ({ st' with cursorCleared := true }, none)
            else processReplies env args authedUserId skipCfg filterCfg parentTs rest st'
        else processReplies env args authedUserId skipCfg filterCfg parentTs rest st
      else
        let res := mirrorReactionsForMessage (env.reactGet rts) authedUserId
          skipCfg filterCfg args.dryRun (env.addRes rts)
        match res.2 with
        | some e => (logActions st rts res.1.actions, some e)
        | none =>
          let st' := accMirror st rts res.1
          if addBudgetReached args st'.totalAdds then
            ({ st' with cursorCleared := true }, none)
          else processReplies env args authedUserId skipCfg filterCfg parentTs rest st'

/-- The message loop of `main` over one history page.  The returned `Bool`
records whether the loop ended through a budget `break` (every such break
also clears the cursor); the final component is a thrown error, if any. -/
def repliesThen (env : BackfillEnv) (args : BackfillArgs) (authedUserId : String)
    (skipCfg : SkipConfig) (filterCfg : ReactionFilterConfig) (m : JsonVal)
    (ts : String) (st2 : BackfillState) : BackfillState × Option (Option String) :=
  if args.includeThreadReplies && replyCountPos m then
    processReplies env args authedUserId skipCfg filterCfg ts (env.threadReplies ts) st2
  else (st2, none)

def processMessages (env : BackfillEnv) (args : BackfillArgs) (authedUserId : String)
    (skipCfg : SkipConfig) (filterCfg : ReactionFilterConfig) :
    List JsonVal → BackfillState → BackfillState × Bool × Option (Option String)
  | [], st => (st, false, none)
  | m :: rest, st =>
    match truthyStr (strField m "ts") with
    | none => processMessages env args authedUserId skipCfg filterCfg rest st
    | some ts =>
      let st1 := { st with processedMessages := st.processedMessages + 1 }
      if msgBudgetExceeded args st1.processedMessages then
        ({ st1 with cursorCleared := true }, true, none)
      else
        let isOwn := (shouldSkipMessage m skipCfg).isSome
        if !(hasNonemptyReactions m) then
          -- message without reactions: optionally add defaults, optionally
          -- descend into replies, then `continue` with the next message
          if args.addDefaultReactions && !isOwn then
            let res := addDefaultReactionsForMessage (env.reactGet ts)
              args.defaultReactionNames skipCfg filterCfg args.dryRun (env.addRes ts)
            match res.2 with
            | some e => (logActions st1 ts res.1.actions, true, some e)
            | none =>
              let st2 := accDefault st1 ts res.1
              if addBudgetReached args st2.totalAdds then
                ({ st2 with cursorCleared := true }, true, none)
              else
                let rr := repliesThen env args authedUserId skipCfg filterCfg m ts st2
                match rr.2 with
                | some e => (rr.1, true, some e)
                | none => processMessages env args authedUserId skipCfg filterCfg rest rr.1
          else
            let st2 :=
              if isOwn then { st1 with totalSkippedOwn := st1.totalSkippedOwn + 1 }
              else st1
            let rr := repliesThen env args authedUserId skipCfg filterCfg m ts st2
            match rr.2 with
            | some e => (rr.1, true, some e)
            | none => processMessages env args authedUserId skipCfg filterCfg rest rr.1
        else
          -- message with reactions: mirror (unless own), optionally descend
          -- into replies, then run the end-of-message budget check
          if !isOwn then
            let res := mirrorReactionsForMessage (env.reactGet ts) authedUserId
              skipCfg filterCfg args.dryRun (env.addRes ts)
            match res.2 with
            | some e => (logActions st1 ts res.1.actions, true, some e)
            | none =>
              let st2 := accMirror st1 ts res.1
              let rr := repliesThen env args authedUserId skipCfg filterCfg m ts st2
              match rr.2 with
              | some e => (rr.1, true, some e)
              | none =>
                if addBudgetReached args rr.1.totalAdds then
                  ({ rr.1 with cursorCleared := true }, true, none)
                else processMessages env args authedUserId skipCfg filterCfg rest rr.1
          else
            let st2 := { st1 with totalSkippedOwn := st1.totalSkippedOwn + 1 }
            let rr := repliesThen env args authedUserId skipCfg filterCfg m ts st2
            match rr.2 with
            | some e => (rr.1, true, some e)
            | none =>
              if addBudgetReached args rr.1.totalAdds then
                ({ rr.1 with cursorCleared := true }, true, none)
              else processMessages env args authedUserId skipCfg filterCfg rest rr.1

/-- The page loop of `main`: fetch a page (recording the counters at fetch
time and resetting the cursor state), process its messages, and continue
while a next-page cursor remains and no budget break cleared it. -/
def runPages (env : BackfillEnv) (args : BackfillArgs) (authedUserId : String)
    (skipCfg : SkipConfig) (filterCfg : ReactionFilterConfig) :
    List (List JsonVal) → BackfillState → BackfillState × Option (Option String)
  | [], st => (st, none)
  | pg :: rest, st =>
    let snap := (st.processedMessages, st.totalAdds)
    let st0 := { st with cursorCleared := false, pageStarts := st.pageStarts ++ [snap] }
    let r := processMessages env args authedUserId skipCfg filterCfg pg st0
    match r.2.2 with
    | some e => (r.1, some e)
    | none =>
      if r.1.cursorCleared || rest.isEmpty then (r.1, none)
      else runPages env args authedUserId skipCfg filterCfg rest r.1

/-- The initial counters of a scan. -/
def initBackfillState : BackfillState :=
  ⟨0, 0, 0, 0, 0, 0, false, [], []⟩

/-- One whole backfill scan. -/
def runBackfill (env : BackfillEnv) (args : BackfillArgs) (authedUserId : String)
    (skipCfg : SkipConfig) (filterCfg : ReactionFilterConfig) :
    BackfillState × Option (Option String) :=
  runPages env args authedUserId skipCfg filterCfg env.pages initBackfillState

/-- A single character the regex metacharacter `.` matches: anything but a
line terminator. -/
def dotChar (c : Char) : Bool :=
  c != '\n' && c != '\r' && c != '\u2028' && c != '\u2029'

/-- The source's epoch test `/^\\d+(\\.\\d+)?$/` on a character list.  In a
regex literal `\\d` is an escaped backslash followed by a literal `d`, and
the dot of `\\.` is then the unescaped any-character metacharacter, so the
whole string must be one backslash, a run of `d`s, and optionally one
backslash, any one character, one backslash and another run of `d`s; no
ordinary digit string matches. -/
def epochReChars (cs : List Char) : Bool :=
  match cs with
  | '\\' :: rest =>
    let p := splitRun 'd' rest
    if p.1.isEmpty then false
    else
      match p.2 with
      | [] => true
      | '\\' :: a :: '\\' :: rest2 =>
        let q := splitRun 'd' rest2
        dotChar a && (!q.1.isEmpty && q.2.isEmpty)
      | _ => false
  | _ => false

/-- The epoch-seconds test `/^\\d+(\\.\\d+)?$/` of `parseTime`. -/
def epochRe (s : String) : Bool := epochReChars s.data

/-- The bare-date test `/^\\d{4}-\\d{2}-\\d{2}$/` of `parseTime`: with
`\\d` an escaped backslash and a literal `d`, it accepts exactly the
13-character text `\dddd-\dd-\dd`, never a `YYYY-MM-DD` date. -/
def bareDateRe (s : String) : Bool :=
  s.data == ['\\', 'd', 'd', 'd', 'd', '-', '\\', 'd', 'd', '-', '\\', 'd', 'd']

/-- Gregorian leap year. -/
def isLeapYear (y : Nat) : Bool := (y % 4 = 0 && y % 100 != 0) || y % 400 = 0

/-- Days in a month (1-based month). -/
def daysInMonth (y m : Nat) : Nat :=
  if m = 2 then (if isLeapYear y then 29 else 28)
  else if m = 4 || m = 6 || m = 9 || m = 11 then 30
  else 31

/-- Days in the months before `m` (1-based) of year `y`. -/
def monthDaysBefore (y m : Nat) : Nat :=
  let feb := if isLeapYear y then 29 else 28
  if m ≤ 1 then 0
  else if m = 2 then 31
  else if m = 3 then 31 + feb
  else if m = 4 then 62 + feb
  else if m = 5 then 92 + feb
  else if m = 6 then 123 + feb
  else if m = 7 then 153 + feb
  else if m = 8 then 184 + feb
  else if m = 9 then 215 + feb
  else if m = 10 then 245 + feb
  else if m = 11 then 276 + feb
  else 306 + feb

/-- Days from 0000-01-01 to the given civil date (proleptic Gregorian). -/
def daysFromYear0 (y m d : Nat) : Nat :=
  365 * y + ((y + 3) / 4 - (y + 99) / 100 + (y + 399) / 400) +
    monthDaysBefore y m + (d - 1)

/-- Days from the Unix epoch to the given civil date. -/
def epochDays (y m d : Nat) : Int :=
  (daysFromYear0 y m d : Int) - 719528

/-- Numeric value of a decimal digit character. -/
def digitVal (c : Char) : Nat := c.toNat - 48

/-- Read exactly two decimal digits. -/
def read2 : List Char → Option (Nat × List Char)
  | a :: b :: rest =>
    if a.isDigit && b.isDigit then some (digitVal a * 10 + digitVal b, rest) else none
  | _ => none

/-- Read exactly four decimal digits. -/
def read4 : List Char → Option (Nat × List Char)
  | a :: b :: c :: d :: rest =>
    if a.isDigit && b.isDigit && c.isDigit && d.isDigit then
      some (((digitVal a * 10 + digitVal b) * 10 + digitVal c) * 10 + digitVal d, rest)
    else none
  | _ => none

/-- Read a time fraction of one to three digits, as milliseconds. -/
def readFrac : List Char → Option (Nat × List Char)
  | a :: rest =>
    if a.isDigit then
      match rest with
      | b :: rest2 =>
        if b.isDigit then
          match rest2 with
          | c :: rest3 =>
            if c.isDigit then
              some (digitVal a * 100 + digitVal b * 10 + digitVal c, rest3)
            else some (digitVal a * 100 + digitVal b * 10, rest2)
          | [] => some (digitVal a * 100 + digitVal b * 10, [])
        else some (digitVal a * 100, rest)
      | [] => some (digitVal a * 100, [])
    else none
  | [] => none

/-- Parse a trailing time-zone designator `Z` or `±HH:mm` (must consume the
whole remainder), as minutes east of UTC. -/
def parseTz : List Char → Option Int
  | ['Z'] => some 0
  | '+' :: rest =>
    (match read2 rest with
     | some (h, ':' :: r1) =>
       match read2 r1 with
       | some (mi, []) => if h ≤ 23 ∧ mi ≤ 59 then some ((h * 60 + mi : Nat) : Int) else none
       | _ => none
     | _ => none)
  | '-' :: rest =>
    (match read2 rest with
     | some (h, ':' :: r1) =>
       match read2 r1 with
       | some (mi, []) => if h ≤ 23 ∧ mi ≤ 59 then some (-((h * 60 + mi : Nat) : Int)) else none
       | _ => none
     | _ => none)
  | _ => none

/-- Parse a clock `HH:mm[:ss[.fff]]` with optional trailing zone designator:
milliseconds into the day, and the zone offset if present. -/
def parseClock (cs : List Char) : Option (Nat × Option Int) :=
  match read2 cs with
  | some (h, ':' :: r1) =>
    (match read2 r1 with
     | some (mi, r2) =>
       let secPart : Option (Nat × Nat × List Char) :=
         match r2 with
         | ':' :: r3 =>
           (match read2 r3 with
            | some (s, '.' :: r5) => (readFrac r5).map (fun p => (s, p.1, p.2))
            | some (s, r4) => some (s, 0, r4)
            | none => none)
         | _ => some (0, 0, r2)
       match secPart with
       | none => none
       | some (s, ms, rest) =>
         let tz : Option (Option Int) :=
           match rest with
           | [] => some none
           | _ => (parseTz rest).map some
         match tz with
         | none => none
         | some tzv =>
           if (h ≤ 23 ∨ (h = 24 ∧ mi = 0 ∧ s = 0 ∧ ms = 0)) ∧ mi ≤ 59 ∧ s ≤ 59 then
             some (((h * 60 + mi) * 60 + s) * 1000 + ms, tzv)
           else none
     | none => none)
  | _ => none

/-- Validate a civil date and combine it with a time of day and zone offset
into epoch milliseconds.  A date-time without zone designator is interpreted
in the host's local zone (`localOff` minutes east of UTC); a date-only form
is interpreted as UTC. -/
def mkMs (localOff : Int) (y m d msOfDay : Nat) (tz : Option Int) (hasTime : Bool) :
    Option Int :=
  if 1 ≤ m ∧ m ≤ 12 ∧ 1 ≤ d ∧ d ≤ daysInMonth y m then
    let offMin : Int :=
      match tz with
      | some o => o
      | none => if hasTime then localOff else 0
    some (86400000 * epochDays y m d + (msOfDay : Int) - 60000 * offMin)
  else none

/-- Modelled from the spec: `Date.parse` restricted to the ECMAScript Date
Time String Format (the ISO-8601 subset whose acceptance ECMA-262 mandates):
`YYYY[-MM[-DD]]` optionally followed by `THH:mm[:ss[.fff]]` with optional
zone `Z`/`±HH:mm`.  Implementation-defined fallback formats of the host are
modelled as rejection.  Returns epoch milliseconds. -/
def dateParse (localOff : Int) (s : String) : Option Int :=
  match read4 s.data with
  | none => none
  | some (y, rest) =>
    match rest with
    | [] => mkMs localOff y 1 1 0 none false
    | 'T' :: tr => (parseClock tr).bind fun p => mkMs localOff y 1 1 p.1 p.2 true
    | '-' :: r1 =>
      (match read2 r1 with
       | none => none
       | some (m, r2) =>
         match r2 with
         | [] => mkMs localOff y m 1 0 none false
         | 'T' :: tr => (parseClock tr).bind fun p => mkMs localOff y m 1 p.1 p.2 true
         | '-' :: r3 =>
           (match read2 r3 with
            | none => none
            | some (d, r4) =>
              match r4 with
              | [] => mkMs localOff y m d 0 none false
              | 'T' :: tr => (parseClock tr).bind fun p => mkMs localOff y m d p.1 p.2 true
              | _ => none)
         | _ => none)
    | _ => none

/-- The bare-date coercion of `parseTime`: an input passing the written
test (the literal text `\dddd-\dd-\dd`, per `bareDateRe`) is given the
suffix `T00:00:00Z`; every other input — real `YYYY-MM-DD` dates included —
is passed on unchanged. -/
def coerceBareDate (trimmed : String) : String :=
  if bareDateRe trimmed then trimmed ++ "T00:00:00Z" else trimmed

/-- `String(ms / 1000)`: the decimal rendering of epoch milliseconds divided
by 1000 (exact division for whole seconds; up to three fraction digits with
trailing zeros dropped otherwise). -/
def msDivStr (ms : Int) : String :=
  if Int.emod ms 1000 = 0 then toString (Int.ediv ms 1000)
  else
    let sign := if ms < 0 then "-" else ""
    let a := ms.natAbs
    let q := a / 1000
    let r := a % 1000
    let digits := [Char.ofNat (48 + r / 100), Char.ofNat (48 + r / 10 % 10),
                   Char.ofNat (48 + r % 10)]
    let frac := (digits.reverse.dropWhile (fun c => c == '0')).reverse
    sign ++ toString q ++ "." ++ String.mk frac

/-- `parseTime`: an input passing the written epoch test (`epochRe`) is
returned trimmed; every other input goes through the written bare-date
coercion and then `Date.parse`, and becomes the epoch-seconds rendering of
the parsed instant; unparseable inputs raise `Invalid time`.  Since the
written tests match only backslash texts, ordinary epoch strings reach
`Date.parse` and are rejected, while `YYYY-MM-DD` dates still parse (as
date-only UTC) through `Date.parse` itself. -/
def parseTime (localOff : Int) (input : String) : Except String String :=
  let trimmed := strTrim input
  if epochRe trimmed then .ok trimmed
  else
    match dateParse localOff (coerceBareDate trimmed) with
    | none => .error ("Invalid time: " ++ input)
    | some ms => .ok (msDivStr ms)

example : parseTime 0 "1735689600" = .error "Invalid time: 1735689600" := rfl
example : parseTime 0 "\\dddd-\\dd-\\dd" = .error "Invalid time: \\dddd-\\dd-\\dd" := rfl
example : parseTime 0 "2026-01-01" = .ok "1767225600" := rfl
example : parseTime 0 "2025-01-01" = .ok "1735689600" := rfl
example : parseTime 0 "not-a-date" = .error "Invalid time: not-a-date" := rfl
example : parseTime 0 "2026-01-31T10:30:00Z" = .ok "1769855400" := rfl
example : parseTime 120 "2026-01-01T00:00:00" = .ok "1767218400" := rfl


theorem collectStrings_length_le :
    ∀ (d : Nat) (v : JsonVal) (out : List String) (m : Nat),
      (collectStrings v out d m).length ≤ max out.length m := by
  intro d
  induction d with
  | zero =>
    intro v out m
    unfold collectStrings
    split
    · exact le_max_left _ _
    · rename_i hcap
      cases v with
      | str s => simp at hcap ⊢; omega
      | num n => simp at hcap ⊢
      | bool b => simp at hcap ⊢
      | null => simp at hcap ⊢
      | arr xs => simp at hcap ⊢
      | obj fs => simp at hcap ⊢
  | succ d ihd =>
    have harr : ∀ (xs : List JsonVal) (out : List String) (m : Nat),
        (xs.foldl (fun acc x => collectStrings x acc d m) out).length ≤
          max out.length m := by
      intro xs
      induction xs with
      | nil => intro out m; exact le_max_left _ _
      | cons x xs ih =>
        intro out m
        simp only [List.foldl_cons]
        have h1 := ih (collectStrings x out d m) m
        have h2 := ihd x out m
        omega
    have hobj : ∀ (fs : List (String × JsonVal)) (out : List String) (m : Nat),
        (fs.foldl (fun acc p => collectStrings p.2 acc d m) out).length ≤
          max out.length m := by
      intro fs
      induction fs with
      | nil => intro out m; exact le_max_left _ _
      | cons p fs ih =>
        intro out m
        simp only [List.foldl_cons]
        have h1 := ih (collectStrings p.2 out d m) m
        have h2 := ihd p.2 out m
        omega
    intro v out m
    unfold collectStrings
    split
    · exact le_max_left _ _
    · rename_i hcap
      cases v with
      | str s => simp at hcap ⊢; omega
      | num n => simp
      | bool b => simp
      | null => simp
      | arr xs => exact harr xs out m
      | obj fs => exact hobj fs out m

theorem collectStrings_trunc :
    ∀ (d : Nat) (v : JsonVal) (out : List String) (m : Nat),
      collectStrings v out d m = collectStrings (truncDepth d v) out d m := by
  intro d
  induction d with
  | zero =>
    intro v out m
    cases v <;> rfl
  | succ d ihd =>
    have harr : ∀ (xs : List JsonVal) (out : List String) (m : Nat),
        xs.foldl (fun acc x => collectStrings x acc d m) out =
          (xs.map (truncDepth d)).foldl (fun acc x => collectStrings x acc d m) out := by
      intro xs
      induction xs with
      | nil => intro out m; rfl
      | cons x xs ih =>
        intro out m
        simp only [List.map_cons, List.foldl_cons]
        rw [← ihd x out m]
        exact ih (collectStrings x out d m) m
    have hobj : ∀ (fs : List (String × JsonVal)) (out : List String) (m : Nat),
        fs.foldl (fun acc p => collectStrings p.2 acc d m) out =
          (fs.map (fun p => (p.1, truncDepth d p.2))).foldl
            (fun acc p => collectStrings p.2 acc d m) out := by
      intro fs
      induction fs with
      | nil => intro out m; rfl
      | cons p fs ih =>
        intro out m
        simp only [List.map_cons, List.foldl_cons]
        rw [← ihd p.2 out m]
        exact ih (collectStrings p.2 out d m) m
    intro v out m
    cases v with
    | str s => rfl
    | num n => rfl
    | bool b => rfl
    | null => rfl
    | arr xs =>
      show collectStrings (.arr xs) out (d + 1) m =
        collectStrings (.arr (xs.map (truncDepth d))) out (d + 1) m
      unfold collectStrings
      split
      · rfl
      · exact harr xs out m
    | obj fs =>
      show collectStrings (.obj fs) out (d + 1) m =
        collectStrings (.obj (fs.map (fun p => (p.1, truncDepth d p.2)))) out (d + 1) m
      unfold collectStrings
      split
      · rfl
      · exact hobj fs out m

/-- C10: for every message value, `messageContentStrings` (that is,
`collectStrings` with `maxDepth 8` and `maxStrings 600`) returns at most 600
strings, and its result only depends on the first 8 levels of the value —
the walk never descends further. -/
theorem C10_messageContentStrings_bounded (v : JsonVal) :
    (messageContentStrings v).length ≤ 600 ∧
      messageContentStrings v = collectStrings (truncDepth 8 v) [] 8 600 := by
  constructor
  · have := collectStrings_length_le 8 v [] 600
    simpa using this
  · exact collectStrings_trunc 8 v [] 600

/-- C2: a message whose `user` field equals the skip configuration's target
identifier is skipped with reason `author_user_id`, and neither
`mirrorReactionsForMessage` nor `addDefaultReactionsForMessage` emits any
add action for it, regardless of its reactions, content, filter
configuration or mode. -/
theorem C2_author_skip_no_actions (message : JsonVal) (cfg : SkipConfig)
    (h : getField message "user" = some (.str cfg.skipUserId)) :
    shouldSkipMessage message cfg = some "author_user_id" ∧
    ∀ (authedUserId : String) (filterCfg : ReactionFilterConfig) (dryRun : Bool)
      (addRes : String → AddResult) (defaults : List String),
      (mirrorReactionsForMessage (some message) authedUserId cfg filterCfg dryRun
        addRes).1.actions = [] ∧
      (addDefaultReactionsForMessage (some message) defaults cfg filterCfg dryRun
        addRes).1.actions = [] := by
  have hskip : shouldSkipMessage message cfg = some "author_user_id" := by
    unfold shouldSkipMessage
    rw [h]
    simp
  refine ⟨hskip, ?_⟩
  intro authedUserId filterCfg dryRun addRes defaults
  constructor
  · unfold mirrorReactionsForMessage
    simp [hskip]
  · unfold addDefaultReactionsForMessage
    simp [hskip]

/-- C2 witness at a concrete message and configuration. -/
theorem C2_witness :
    getField (.obj [("user", .str "U1"), ("text", .str "hello")]) "user" =
        some (.str (SkipConfig.mk "U1" [] none [] false).skipUserId) ∧
      shouldSkipMessage (.obj [("user", .str "U1"), ("text", .str "hello")])
        (SkipConfig.mk "U1" [] none [] false) = some "author_user_id" ∧
      (mirrorReactionsForMessage (some (.obj [("user", .str "U1"), ("text", .str "hello")]))
        "me" (SkipConfig.mk "U1" [] none [] false) (ReactionFilterConfig.mk [] [] none false)
        false (fun _ => .success)).1.actions = [] :=
  ⟨rfl,
   (C2_author_skip_no_actions (.obj [("user", .str "U1"), ("text", .str "hello")])
     (SkipConfig.mk "U1" [] none [] false) rfl).1,
   ((C2_author_skip_no_actions (.obj [("user", .str "U1"), ("text", .str "hello")])
     (SkipConfig.mk "U1" [] none [] false) rfl).2 "me"
     (ReactionFilterConfig.mk [] [] none false) false (fun _ => .success) []).1⟩

theorem mirrorLoop_actions_not_blocked (addRes : String → AddResult)
    (filterCfg : ReactionFilterConfig) (dryRun : Bool) (hasAuthed : List String) :
    ∀ (cs : List String) (n : String),
      n ∈ (mirrorLoop addRes filterCfg dryRun hasAuthed cs).actions →
      isReactionBlocked n filterCfg = false := by
  intro cs
  induction cs with
  | nil => intro n hn; simp [mirrorLoop] at hn
  | cons c cs ih =>
    intro n hn
    unfold mirrorLoop at hn
    by_cases h1 : c ∈ hasAuthed
    · rw [if_pos h1] at hn; exact ih n hn
    · rw [if_neg h1] at hn
      by_cases h2 : isReactionBlocked c filterCfg
      · rw [if_pos h2] at hn; exact ih n hn
      · rw [if_neg h2] at hn
        by_cases h3 : dryRun = true
        · rw [if_pos h3] at hn
          simp at hn
          rcases hn with rfl | hn
          · simpa using h2
          · exact ih n hn
        · rw [if_neg h3] at hn
          cases har : addRes c with
          | success =>
            rw [har] at hn
            simp at hn
            rcases hn with rfl | hn
            · simpa using h2
            · exact ih n hn
          | apiError code =>
            rw [har] at hn
            by_cases h4 : code = some "already_reacted"
            · simp only [h4, if_true] at hn
              simp at hn
              rcases hn with rfl | hn
              · simpa using h2
              · exact ih n hn
            · simp only [if_neg h4] at hn
              simp at hn
              rcases hn with rfl
              simpa using h2

theorem defaultsLoop_actions_not_blocked (addRes : String → AddResult)
    (filterCfg : ReactionFilterConfig) (dryRun : Bool) :
    ∀ (ns : List String) (n : String),
      n ∈ (defaultsLoop addRes filterCfg dryRun ns).actions →
      isReactionBlocked n filterCfg = false := by
  intro ns
  induction ns with
  | nil => intro n hn; simp [defaultsLoop] at hn
  | cons c cs ih =>
    intro n hn
    unfold defaultsLoop at hn
    by_cases h2 : isReactionBlocked c filterCfg
    · rw [if_pos h2] at hn; exact ih n hn
    · rw [if_neg h2] at hn
      by_cases h3 : dryRun = true
      · rw [if_pos h3] at hn
        simp at hn
        rcases hn with rfl | hn
        · simpa using h2
        · exact ih n hn
      · rw [if_neg h3] at hn
        cases har : addRes c with
        | success =>
          rw [har] at hn
          simp at hn
          rcases hn with rfl | hn
          · simpa using h2
          · exact ih n hn
        | apiError code =>
          rw [har] at hn
          by_cases h4 : code = some "already_reacted"
          · simp only [h4, if_true] at hn
            simp at hn
            rcases hn with rfl | hn
            · simpa using h2
            · exact ih n hn
          · simp only [if_neg h4] at hn
            simp at hn
            rcases hn with rfl
            simpa using h2

/-- C4: an emoji name blocked by the reaction filter (exact, substring or
regex rule) never appears among the add actions emitted by
`mirrorReactionsForMessage` or `addDefaultReactionsForMessage`. -/
theorem C4_blocked_never_added (filterCfg : ReactionFilterConfig) (name : String)
    (hb : isReactionBlocked name filterCfg = true) :
    ∀ (fetched : Option JsonVal) (authedUserId : String) (skipCfg : SkipConfig)
      (dryRun : Bool) (addRes : String → AddResult) (defaults : List String),
      name ∉ (mirrorReactionsForMessage fetched authedUserId skipCfg filterCfg dryRun
        addRes).1.actions ∧
      name ∉ (addDefaultReactionsForMessage fetched defaults skipCfg filterCfg dryRun
        addRes).1.actions := by
  intro fetched authedUserId skipCfg dryRun addRes defaults
  constructor
  · intro hmem
    cases fetched with
    | none => simp [mirrorReactionsForMessage] at hmem
    | some message =>
      simp only [mirrorReactionsForMessage] at hmem
      by_cases hskip : (shouldSkipMessage message skipCfg).isSome
      · rw [if_pos hskip] at hmem; simp at hmem
      · rw [if_neg hskip] at hmem
        by_cases hre : (jsonReactions message).isEmpty
        · rw [if_pos hre] at hmem; simp at hmem
        · rw [if_neg hre] at hmem
          simp only [] at hmem
          have := mirrorLoop_actions_not_blocked addRes filterCfg dryRun
            (buildCanonicalSets authedUserId (jsonReactions message)).2
            (buildCanonicalSets authedUserId (jsonReactions message)).1 name hmem
          rw [hb] at this
          exact absurd this (by simp)
  · intro hmem
    cases fetched with
    | none => simp [addDefaultReactionsForMessage] at hmem
    | some message =>
      simp only [addDefaultReactionsForMessage] at hmem
      by_cases hskip : (shouldSkipMessage message skipCfg).isSome
      · rw [if_pos hskip] at hmem; simp at hmem
      · rw [if_neg hskip] at hmem
        by_cases hre : hasNonemptyReactions message
        · rw [if_pos hre] at hmem; simp at hmem
        · rw [if_neg hre] at hmem
          simp only [] at hmem
          have := defaultsLoop_actions_not_blocked addRes filterCfg dryRun
            defaults name hmem
          rw [hb] at this
          exact absurd this (by simp)

/-- C4 witness: with blocklist `{v}`, the blocked name `v` is emitted by
neither routine at a concrete message. -/
theorem C4_witness :
    isReactionBlocked "v" (ReactionFilterConfig.mk ["v"] [] none false) = true ∧
      "v" ∉ (mirrorReactionsForMessage
        (some (.obj [("user", .str "alice"),
          ("reactions", .arr [.obj [("name", .str "v"), ("users", .arr [.str "bob"])]])]))
        "me" (SkipConfig.mk "U1" [] none [] false)
        (ReactionFilterConfig.mk ["v"] [] none false) false
        (fun _ => .success)).1.actions :=
  ⟨by decide,
   ((C4_blocked_never_added (ReactionFilterConfig.mk ["v"] [] none false) "v" (by decide))
     (some (.obj [("user", .str "alice"),
       ("reactions", .arr [.obj [("name", .str "v"), ("users", .arr [.str "bob"])]])]))
     "me" (SkipConfig.mk "U1" [] none [] false) false (fun _ => .success) []).1⟩


/-- A re-fetched message on which the acting account has already reacted,
but only under the skin-tone variant of `rocket`; another user holds the
base `rocket` reaction. -/
def c3Fetched : JsonVal :=
  .obj [("user", .str "alice"),
    ("reactions", .arr [
      .obj [("name", .str "rocket::skin-tone-2"), ("users", .arr [.str "me"])],
      .obj [("name", .str "rocket"), ("users", .arr [.str "bob"])]])]

/-- C3: the code bug demonstrated.  Because the skin-tone regex of
`canonicalizeReactionName` never matches (`\\d` is an escaped backslash and
a literal `d`, not a digit class), the entry `rocket::skin-tone-2` that
already lists the acting account does not canonicalize to `rocket`, and
`mirrorReactionsForMessage` emits an add for `rocket` anyway: the account
duplicates, up to the intended skin-tone canonicalization, a reaction it
already has on the message. -/
theorem C3_tone_variant_not_deduplicated :
    canonicalizeReactionName "rocket::skin-tone-2" ≠ "rocket" ∧
    (mirrorReactionsForMessage (some c3Fetched) "me"
      (SkipConfig.mk "U1" [] none [] false)
      (ReactionFilterConfig.mk [] [] none false)
      false (fun _ => .success)).1.actions = ["rocket"] :=
  ⟨by decide, rfl⟩

theorem defaultsLoop_rocket_v (addRes : String → AddResult) (dryRun : Bool) :
    (defaultsLoop addRes (ReactionFilterConfig.mk ["v"] [] none false) dryRun
      ["rocket", "v"]).actions = ["rocket"] ∧
    ((defaultsLoop addRes (ReactionFilterConfig.mk ["v"] [] none false) dryRun
      ["rocket", "v"]).err = none →
     (defaultsLoop addRes (ReactionFilterConfig.mk ["v"] [] none false) dryRun
      ["rocket", "v"]).skippedBlacklisted = 1) := by
  have hrocket :
      isReactionBlocked "rocket" (ReactionFilterConfig.mk ["v"] [] none false) = false := by
    decide
  have hv : isReactionBlocked "v" (ReactionFilterConfig.mk ["v"] [] none false) = true := by
    decide
  simp only [defaultsLoop, hrocket, hv]
  cases dryRun
  · simp only [Bool.false_eq_true, if_false]
    cases har : addRes "rocket" with
    | success => simp
    | apiError code =>
      by_cases h4 : code = some "already_reacted"
      · simp [h4]
      · simp [h4]
  · simp

/-- C5: for a message with zero existing reactions that triggers no skip
rule, with default list `[rocket, v]` and blocklist `{v}`,
`addDefaultReactionsForMessage` emits exactly one add action, for `rocket`
(and, when no error aborts the loop, counts `v` as skipped-blacklisted). -/
theorem C5_defaults_one_action_rocket (message : JsonVal) (skipCfg : SkipConfig)
    (dryRun : Bool) (addRes : String → AddResult)
    (hskip : shouldSkipMessage message skipCfg = none)
    (hreact : hasNonemptyReactions message = false) :
    (addDefaultReactionsForMessage (some message)
      (computeDefaultReactionNames ["rocket", "v"]) skipCfg
      (ReactionFilterConfig.mk ["v"] [] none false) dryRun addRes).1.actions =
        ["rocket"] ∧
    ((addDefaultReactionsForMessage (some message)
      (computeDefaultReactionNames ["rocket", "v"]) skipCfg
      (ReactionFilterConfig.mk ["v"] [] none false) dryRun addRes).2 = none →
     (addDefaultReactionsForMessage (some message)
      (computeDefaultReactionNames ["rocket", "v"]) skipCfg
      (ReactionFilterConfig.mk ["v"] [] none false) dryRun addRes).1.skippedBlacklisted
        = 1) := by
  have hnames : computeDefaultReactionNames ["rocket", "v"] = ["rocket", "v"] := by decide
  simp only [addDefaultReactionsForMessage, hskip, hreact, Option.isSome_none,
    Bool.false_eq_true, if_false, hnames]
  exact defaultsLoop_rocket_v addRes dryRun

/-- C5 witness at a concrete message with no reactions. -/
theorem C5_witness :
    (addDefaultReactionsForMessage
      (some (.obj [("user", .str "bob"), ("text", .str "hi")]))
      (computeDefaultReactionNames ["rocket", "v"])
      (SkipConfig.mk "U1" [] none [] false)
      (ReactionFilterConfig.mk ["v"] [] none false) false
      (fun _ => .success)).1.actions = ["rocket"] :=
  (C5_defaults_one_action_rocket (.obj [("user", .str "bob"), ("text", .str "hi")])
    (SkipConfig.mk "U1" [] none [] false) false (fun _ => .success)
    (by decide) rfl).1

theorem handleReactionEvent_add_path (authedUserId channel ts reactingUser author
      reaction : String) (filterChannelId : Option String) (skipCfg : SkipConfig)
    (filterCfg : ReactionFilterConfig) (message : JsonVal)
    (reactGet : String → String → Option JsonVal) (addRes : String → AddResult)
    (hchan : channel ≠ "") (hts : ts ≠ "") (huser : reactingUser ≠ "")
    (hreac : reaction ≠ "")
    (hnotself : reactingUser ≠ authedUserId)
    (hfilter : filterChannelId = none ∨ filterChannelId = some channel)
    (hnb1 : isReactionBlocked reaction filterCfg = false)
    (hnb2 : isReactionBlocked (canonicalizeReactionName reaction) filterCfg = false)
    (hauthor : author ≠ skipCfg.skipUserId)
    (hget : reactGet channel ts = some message)
    (hskip : shouldSkipMessage message skipCfg = none)
    (halready : ∀ r ∈ jsonReactions message, ∀ n, truthyStr r.1 = some n →
      canonicalizeReactionName n = canonicalizeReactionName reaction →
      r.2.contains authedUserId = false) :
    handleReactionEvent authedUserId filterChannelId skipCfg filterCfg reactGet addRes
      (.obj [("event", .obj [("type", .str "reaction_added"),
        ("user", .str reactingUser), ("reaction", .str reaction),
        ("item_user", .str author),
        ("item", .obj [("type", .str "message"), ("channel", .str channel),
          ("ts", .str ts)])])]) =
      (addCallOutcome (canonicalizeReactionName reaction)
        (addRes (canonicalizeReactionName reaction)),
       [canonicalizeReactionName reaction]) := by
  have hkey : ∀ (x : Option String) (x1 : List String),
      (x, x1) ∈ jsonReactions message →
      (match (match x with
              | some s => if s = "" then none else some s
              | none => none) with
        | none => false
        | some n => canonicalizeReactionName n == canonicalizeReactionName reaction &&
            decide (authedUserId ∈ x1)) = false := by
    intro x x1 hmem
    cases x with
    | none => rfl
    | some s =>
      by_cases hs : s = ""
      · simp [hs]
      · simp only [if_neg hs]
        by_cases hcanon : canonicalizeReactionName s = canonicalizeReactionName reaction
        · have hcont := halready (some s, x1) hmem s (by simp [truthyStr, hs]) hcanon
          simp at hcont
          simp [hcanon, hcont]
        · simp [hcanon]
  unfold handleReactionEvent
  simp only [getField, strField, truthyStr, jsTruthy, List.find?]
  simp [hchan, hts, huser, hreac, hnotself, Ne.symm hnotself, hnb1, hnb2, hget,
    hskip, hauthor]
  rcases hfilter with rfl | rfl
  · simp [hauthor]
    exact hkey
  · simp [hauthor]
    exact hkey


/-- C7: the code bug demonstrated.  With the never-matching skin-tone
regex, the watcher canonicalizes `raised_hands::skin-tone-3` to itself, so
the single `reactions.add` call it issues for such a live event carries the
raw variant name, not the canonical `raised_hands` the claim expects. -/
theorem C7_add_call_uses_raw_variant :
    handleReactionEvent "me" none (SkipConfig.mk "me" [] none [] false)
      (ReactionFilterConfig.mk [] [] none false)
      (fun _ _ => some (.obj [("user", .str "U3"), ("text", .str "hi")]))
      (fun _ => .success)
      (.obj [("event", .obj [("type", .str "reaction_added"),
        ("user", .str "U2"),
        ("reaction", .str "raised_hands::skin-tone-3"),
        ("item_user", .str "U3"),
        ("item", .obj [("type", .str "message"), ("channel", .str "C1"),
          ("ts", .str "1")])])]) =
      (.added "raised_hands::skin-tone-3", ["raised_hands::skin-tone-3"]) :=
  rfl

/-- C9 counterexample: in the backfill `mirrorReactionsForMessage`, a
`too_many_reactions` failure is NOT logged-and-skipped: it propagates as a
thrown error (second component `some …`), and the remaining reaction of the
same message (`rocket`) is never attempted — contradicting the claim that
the capacity conflict is non-fatal in backfill message processing. -/
theorem C9_counterexample :
    (mirrorReactionsForMessage
      (some (.obj [("user", .str "alice"),
        ("reactions", .arr [
          .obj [("name", .str "tada"), ("users", .arr [.str "bob"])],
          .obj [("name", .str "rocket"), ("users", .arr [.str "bob"])]])]))
      "me" (SkipConfig.mk "U1" [] none [] false)
      (ReactionFilterConfig.mk [] [] none false) false
      (fun _ => .apiError (some "too_many_reactions"))).2 =
        some (some "too_many_reactions") ∧
    (mirrorReactionsForMessage
      (some (.obj [("user", .str "alice"),
        ("reactions", .arr [
          .obj [("name", .str "tada"), ("users", .arr [.str "bob"])],
          .obj [("name", .str "rocket"), ("users", .arr [.str "bob"])]])]))
      "me" (SkipConfig.mk "U1" [] none [] false)
      (ReactionFilterConfig.mk [] [] none false) false
      (fun _ => .apiError (some "too_many_reactions"))).1.actions = ["tada"] := by
  constructor
  · rfl
  · rfl

theorem mirrorLoop_too_many_throws (addRes : String → AddResult)
    (filterCfg : ReactionFilterConfig) (hasAuthed : List String) :
    ∀ (cs : List String) (n : String),
      n ∈ (mirrorLoop addRes filterCfg false hasAuthed cs).actions →
      addRes n = .apiError (some "too_many_reactions") →
      (mirrorLoop addRes filterCfg false hasAuthed cs).err =
        some (some "too_many_reactions") := by
  intro cs
  induction cs with
  | nil => intro n hn; simp [mirrorLoop] at hn
  | cons c' cs ih =>
    intro n hn htoo
    unfold mirrorLoop at hn ⊢
    by_cases h1 : c' ∈ hasAuthed
    · rw [if_pos h1] at hn ⊢; exact ih n hn htoo
    · rw [if_neg h1] at hn ⊢
      by_cases h2 : isReactionBlocked c' filterCfg
      · rw [if_pos h2] at hn ⊢; exact ih n hn htoo
      · rw [if_neg h2] at hn ⊢
        rw [if_neg (by simp : ¬(false = true))] at hn ⊢
        cases har : addRes c' with
        | success =>
          rw [har] at hn
          simp at hn
          rcases hn with rfl | hn
          · rw [har] at htoo; exact absurd htoo (by simp)
          · exact ih n hn htoo
        | apiError code =>
          rw [har] at hn
          by_cases h4 : code = some "already_reacted"
          · simp only [h4, if_true] at hn ⊢
            simp at hn
            rcases hn with rfl | hn
            · rw [har] at htoo
              injection htoo with he
              rw [h4] at he
              exact absurd he (by simp)
            · exact ih n hn htoo
          · simp only [if_neg h4] at hn ⊢
            simp at hn
            rcases hn with rfl
            rw [har] at htoo
            injection htoo with he
            rw [he]

theorem defaultsLoop_too_many_throws (addRes : String → AddResult)
    (filterCfg : ReactionFilterConfig) :
    ∀ (ns : List String) (n : String),
      n ∈ (defaultsLoop addRes filterCfg false ns).actions →
      addRes n = .apiError (some "too_many_reactions") →
      (defaultsLoop addRes filterCfg false ns).err =
        some (some "too_many_reactions") := by
  intro ns
  induction ns with
  | nil => intro n hn; simp [defaultsLoop] at hn
  | cons c' cs ih =>
    intro n hn htoo
    unfold defaultsLoop at hn ⊢
    by_cases h2 : isReactionBlocked c' filterCfg
    · rw [if_pos h2] at hn ⊢; exact ih n hn htoo
    · rw [if_neg h2] at hn ⊢
      rw [if_neg (by simp : ¬(false = true))] at hn ⊢
      cases har : addRes c' with
      | success =>
        rw [har] at hn
        simp at hn
        rcases hn with rfl | hn
        · rw [har] at htoo; exact absurd htoo (by simp)
        · exact ih n hn htoo
      | apiError code =>
        rw [har] at hn
        by_cases h4 : code = some "already_reacted"
        · simp only [h4, if_true] at hn ⊢
          simp at hn
          rcases hn with rfl | hn
          · rw [har] at htoo
            injection htoo with he
            rw [h4] at he
            exact absurd he (by simp)
          · exact ih n hn htoo
        · simp only [if_neg h4] at hn ⊢
          simp at hn
          rcases hn with rfl
          rw [har] at htoo
          injection htoo with he
          rw [he]

/-- C9 amended: the `too_many_reactions` capacity conflict is logged and
skipped (non-fatal, processing continues) only in the live watcher; in the
backfill helpers (`mirrorReactionsForMessage`,
`addDefaultReactionsForMessage`) only `already_reacted` is caught, so a
`too_many_reactions` failure on an attempted add propagates as a thrown
error that aborts the scan. -/
theorem C9_too_many_reactions_handling :
    (∀ (authedUserId channel ts reactingUser author reaction : String)
       (filterChannelId : Option String) (skipCfg : SkipConfig)
       (filterCfg : ReactionFilterConfig) (message : JsonVal)
       (reactGet : String → String → Option JsonVal) (addRes : String → AddResult),
       channel ≠ "" → ts ≠ "" → reactingUser ≠ "" → reaction ≠ "" →
       reactingUser ≠ authedUserId →
       (filterChannelId = none ∨ filterChannelId = some channel) →
       isReactionBlocked reaction filterCfg = false →
       isReactionBlocked (canonicalizeReactionName reaction) filterCfg = false →
       author ≠ skipCfg.skipUserId →
       reactGet channel ts = some message →
       shouldSkipMessage message skipCfg = none →
       (∀ r ∈ jsonReactions message, ∀ n, truthyStr r.1 = some n →
         canonicalizeReactionName n = canonicalizeReactionName reaction →
         r.2.contains authedUserId = false) →
       addRes (canonicalizeReactionName reaction) =
         .apiError (some "too_many_reactions") →
       handleReactionEvent authedUserId filterChannelId skipCfg filterCfg reactGet
         addRes (.obj [("event", .obj [("type", .str "reaction_added"),
           ("user", .str reactingUser), ("reaction", .str reaction),
           ("item_user", .str author),
           ("item", .obj [("type", .str "message"), ("channel", .str channel),
             ("ts", .str ts)])])]) =
         (.caughtTooMany (canonicalizeReactionName reaction),
          [canonicalizeReactionName reaction])) ∧
    (∀ (fetched : Option JsonVal) (authedUserId : String) (skipCfg : SkipConfig)
       (filterCfg : ReactionFilterConfig) (addRes : String → AddResult) (n : String),
       n ∈ (mirrorReactionsForMessage fetched authedUserId skipCfg filterCfg false
         addRes).1.actions →
       addRes n = .apiError (some "too_many_reactions") →
       (mirrorReactionsForMessage fetched authedUserId skipCfg filterCfg false
         addRes).2 = some (some "too_many_reactions")) ∧
    (∀ (fetched : Option JsonVal) (defaults : List String) (skipCfg : SkipConfig)
       (filterCfg : ReactionFilterConfig) (addRes : String → AddResult) (n : String),
       n ∈ (addDefaultReactionsForMessage fetched defaults skipCfg filterCfg false
         addRes).1.actions →
       addRes n = .apiError (some "too_many_reactions") →
       (addDefaultReactionsForMessage fetched defaults skipCfg filterCfg false
         addRes).2 = some (some "too_many_reactions")) := by
  refine ⟨?_, ?_, ?_⟩
  · intro authedUserId channel ts reactingUser author reaction filterChannelId skipCfg
      filterCfg message reactGet addRes hchan hts huser hreac hnotself hfilter hnb1 hnb2
      hauthor hget hskip halready htoo
    rw [handleReactionEvent_add_path authedUserId channel ts reactingUser author reaction
      filterChannelId skipCfg filterCfg message reactGet addRes hchan hts huser hreac
      hnotself hfilter hnb1 hnb2 hauthor hget hskip halready, htoo]
    rfl
  · intro fetched authedUserId skipCfg filterCfg addRes n hn htoo
    cases fetched with
    | none => simp [mirrorReactionsForMessage] at hn
    | some message =>
      simp only [mirrorReactionsForMessage] at hn ⊢
      by_cases hskip : (shouldSkipMessage message skipCfg).isSome
      · rw [if_pos hskip] at hn; simp at hn
      · rw [if_neg hskip] at hn ⊢
        by_cases hre : (jsonReactions message).isEmpty
        · rw [if_pos hre] at hn; simp at hn
        · rw [if_neg hre] at hn ⊢
          exact mirrorLoop_too_many_throws addRes filterCfg _ _ n hn htoo
  · intro fetched defaults skipCfg filterCfg addRes n hn htoo
    cases fetched with
    | none => simp [addDefaultReactionsForMessage] at hn
    | some message =>
      simp only [addDefaultReactionsForMessage] at hn ⊢
      by_cases hskip : (shouldSkipMessage message skipCfg).isSome
      · rw [if_pos hskip] at hn; simp at hn
      · rw [if_neg hskip] at hn ⊢
        by_cases hre : hasNonemptyReactions message
        · rw [if_pos hre] at hn; simp at hn
        · rw [if_neg hre] at hn ⊢
          exact defaultsLoop_too_many_throws addRes filterCfg defaults n hn htoo

/-- C9 witness: the watcher skips a concrete capacity conflict while the
backfill helper throws on one. -/
theorem C9_witness :
    handleReactionEvent "me" none (SkipConfig.mk "me" [] none [] false)
      (ReactionFilterConfig.mk [] [] none false)
      (fun _ _ => some (.obj [("user", .str "U3"), ("text", .str "hi")]))
      (fun _ => .apiError (some "too_many_reactions"))
      (.obj [("event", .obj [("type", .str "reaction_added"),
        ("user", .str "U2"), ("reaction", .str "tada"),
        ("item_user", .str "U3"),
        ("item", .obj [("type", .str "message"), ("channel", .str "C1"),
          ("ts", .str "1")])])]) =
      (.caughtTooMany "tada", ["tada"]) ∧
    (mirrorReactionsForMessage
      (some (.obj [("user", .str "alice"),
        ("reactions", .arr [.obj [("name", .str "tada"),
          ("users", .arr [.str "bob"])]])]))
      "me" (SkipConfig.mk "U1" [] none [] false)
      (ReactionFilterConfig.mk [] [] none false) false
      (fun _ => .apiError (some "too_many_reactions"))).2 =
        some (some "too_many_reactions") :=
  ⟨C9_too_many_reactions_handling.1 "me" "C1" "1" "U2" "U3" "tada" none
    (SkipConfig.mk "me" [] none [] false) (ReactionFilterConfig.mk [] [] none false)
    (.obj [("user", .str "U3"), ("text", .str "hi")])
    (fun _ _ => some (.obj [("user", .str "U3"), ("text", .str "hi")]))
    (fun _ => .apiError (some "too_many_reactions"))
    (by decide) (by decide) (by decide) (by decide) (by decide) (Or.inl rfl)
    (by decide) (by decide) (by decide) rfl (by decide)
    (by intro r hr; simp [jsonReactions, getField] at hr) rfl,
   C9_too_many_reactions_handling.2.1
    (some (.obj [("user", .str "alice"),
      ("reactions", .arr [.obj [("name", .str "tada"),
        ("users", .arr [.str "bob"])]])]))
    "me" (SkipConfig.mk "U1" [] none [] false) (ReactionFilterConfig.mk [] [] none false)
    (fun _ => .apiError (some "too_many_reactions")) "tada" (by decide) rfl⟩


/-- C8: the code bug demonstrated.  The written epoch test
`/^\\d+(\\.\\d+)?$/` does not match an epoch-seconds string, and the
written bare-date test does not match a `YYYY-MM-DD` date, so an
epoch-seconds argument is not returned as-is: it falls through to
`Date.parse`, which rejects it, and `parseTime` raises `Invalid time`
instead.  A bare date still converts, but through `Date.parse` itself
(date-only, UTC), not through the coercion branch. -/
theorem C8_epoch_seconds_rejected :
    epochRe "1735689600" = false ∧
    bareDateRe "2026-01-01" = false ∧
    parseTime 0 "1735689600" = .error "Invalid time: 1735689600" ∧
    parseTime 0 "2026-01-01" = .ok "1767225600" :=
  ⟨rfl, rfl, rfl, rfl⟩

/-- A history message (one reaction entry, as `conversations.history`
reports it). -/
def c6HistoryMessage : JsonVal :=
  .obj [("ts", .str "1"), ("user", .str "alice"),
    ("reactions", .arr [.obj [("name", .str "tada"), ("count", .num 1)]])]

/-- The same message as `reactions.get` reports it: two reaction entries by
another user. -/
def c6FetchedMessage : JsonVal :=
  .obj [("user", .str "alice"),
    ("reactions", .arr [
      .obj [("name", .str "tada"), ("users", .arr [.str "bob"])],
      .obj [("name", .str "rocket"), ("users", .arr [.str "bob"])]])]

/-- One page of one message; every add succeeds. -/
def c6Env : BackfillEnv :=
  ⟨[[c6HistoryMessage]], fun _ => some c6FetchedMessage, fun _ => [],
    fun _ _ => .success⟩

/-- Plain mirror backfill with `--max-adds 1`. -/
def c6Args : BackfillArgs := ⟨false, false, false, none, some 1, []⟩

/-- C6 counterexample: with `maxAdds = 1`, a single message carrying two
mirrorable reactions gets BOTH adds attempted (the budget is only checked
between messages), so the total attempted adds (2) exceeds `maxAdds` (1) —
contradicting the claim that the attempted-add total never exceeds
`maxAdds`. -/
theorem C6_counterexample :
    c6Args.maxReactionsAdds = some 1 ∧
    (runBackfill c6Env c6Args "me" (SkipConfig.mk "me" [] none [] false)
      (ReactionFilterConfig.mk [] [] none false)).1.totalAdds = 2 ∧
    (runBackfill c6Env c6Args "me" (SkipConfig.mk "me" [] none [] false)
      (ReactionFilterConfig.mk [] [] none false)).1.log =
      [("1", "tada"), ("1", "rocket")] :=
  ⟨rfl, rfl, rfl⟩

@[simp] theorem logActions_processedMessages (st : BackfillState) (ts : String)
    (as : List String) : (logActions st ts as).processedMessages = st.processedMessages :=
  rfl

@[simp] theorem logActions_totalAdds (st : BackfillState) (ts : String)
    (as : List String) : (logActions st ts as).totalAdds = st.totalAdds := rfl

@[simp] theorem logActions_cursorCleared (st : BackfillState) (ts : String)
    (as : List String) : (logActions st ts as).cursorCleared = st.cursorCleared := rfl

@[simp] theorem logActions_pageStarts (st : BackfillState) (ts : String)
    (as : List String) : (logActions st ts as).pageStarts = st.pageStarts := rfl

@[simp] theorem accMirror_processedMessages (st : BackfillState) (ts : String)
    (r : MirrorResult) : (accMirror st ts r).processedMessages = st.processedMessages :=
  rfl

@[simp] theorem accMirror_totalAdds (st : BackfillState) (ts : String)
    (r : MirrorResult) : (accMirror st ts r).totalAdds = st.totalAdds + r.added := rfl

@[simp] theorem accMirror_cursorCleared (st : BackfillState) (ts : String)
    (r : MirrorResult) : (accMirror st ts r).cursorCleared = st.cursorCleared := rfl

@[simp] theorem accMirror_pageStarts (st : BackfillState) (ts : String)
    (r : MirrorResult) : (accMirror st ts r).pageStarts = st.pageStarts := rfl

@[simp] theorem accDefault_processedMessages (st : BackfillState) (ts : String)
    (r : DefaultResult) :
    (accDefault st ts r).processedMessages = st.processedMessages := rfl

@[simp] theorem accDefault_totalAdds (st : BackfillState) (ts : String)
    (r : DefaultResult) : (accDefault st ts r).totalAdds = st.totalAdds + r.added := rfl

@[simp] theorem accDefault_cursorCleared (st : BackfillState) (ts : String)
    (r : DefaultResult) : (accDefault st ts r).cursorCleared = st.cursorCleared := rfl

@[simp] theorem accDefault_pageStarts (st : BackfillState) (ts : String)
    (r : DefaultResult) : (accDefault st ts r).pageStarts = st.pageStarts := rfl

/-- The add-budget invariant between processing units: while the cursor has
not been cleared by a budget break, either no add was attempted yet or the
add budget has not been reached (every call site that changes the counter
is followed by a check before the loop state is reused). -/
def addsInv (args : BackfillArgs) (st : BackfillState) : Prop :=
  st.cursorCleared = false →
    st.totalAdds = 0 ∨ addBudgetReached args st.totalAdds = false

theorem processReplies_inv (env : BackfillEnv) (args : BackfillArgs)
    (authedUserId : String) (skipCfg : SkipConfig) (filterCfg : ReactionFilterConfig)
    (parentTs : String) :
    ∀ (replies : List JsonVal) (st : BackfillState),
      (processReplies env args authedUserId skipCfg filterCfg parentTs replies
        st).1.processedMessages = st.processedMessages ∧
      (processReplies env args authedUserId skipCfg filterCfg parentTs replies
        st).1.pageStarts = st.pageStarts ∧
      (addsInv args st →
        addsInv args (processReplies env args authedUserId skipCfg filterCfg parentTs
          replies st).1) := by
  intro replies
  induction replies with
  | nil => intro st; exact ⟨rfl, rfl, id⟩
  | cons reply rest ih =>
    intro st
    unfold processReplies
    split
    · exact ih st
    · rename_i rts htv
      split
      · exact ih st
      · split
        · exact ih _
        · split
          · -- reply without reactions
            split
            · -- default-reactions mode
              simp only []
              split
              · exact ⟨rfl, rfl, id⟩
              · split
                · exact ⟨rfl, rfl, fun _ hc => by simp at hc⟩
                · rename_i hb
                  have h4 := ih (accDefault st rts
                    (addDefaultReactionsForMessage (env.reactGet rts)
                      args.defaultReactionNames skipCfg filterCfg args.dryRun
                      (env.addRes rts)).1)
                  refine ⟨h4.1, h4.2.1, fun _ => h4.2.2 (fun _ => Or.inr ?_)⟩
                  simpa using hb
            · exact ih st
          · -- reply with reactions: mirror
            simp only []
            split
            · exact ⟨rfl, rfl, id⟩
            · split
              · exact ⟨rfl, rfl, fun _ hc => by simp at hc⟩
              · rename_i hb
                have h4 := ih (accMirror st rts
                  (mirrorReactionsForMessage (env.reactGet rts) authedUserId skipCfg
                    filterCfg args.dryRun (env.addRes rts)).1)
                refine ⟨h4.1, h4.2.1, fun _ => h4.2.2 (fun _ => Or.inr ?_)⟩
                simpa using hb

/-- The per-page invariant of the message loop: page-fetch records are
untouched; unless an error was thrown (which aborts the whole scan), the
add-budget invariant is preserved; and the processed-message counter passes
its budget by at most one, and not at all while the cursor survives. -/
def pmInv (args : BackfillArgs) (st : BackfillState)
    (r : BackfillState × Bool × Option (Option String)) : Prop :=
  r.1.pageStarts = st.pageStarts ∧
  (r.2.2 = none → addsInv args st → addsInv args r.1) ∧
  (∀ M, args.maxMessages = some M → st.processedMessages ≤ M →
    r.1.processedMessages ≤ M + 1 ∧
    (r.1.cursorCleared = false → r.1.processedMessages ≤ M))

theorem msgBudget_le {args : BackfillArgs} {p M : Nat}
    (h : msgBudgetExceeded args p = false) (hm : args.maxMessages = some M) : p ≤ M := by
  unfold msgBudgetExceeded at h
  rw [hm] at h
  simpa using h

theorem repliesThen_inv (env : BackfillEnv) (args : BackfillArgs)
    (authedUserId : String) (skipCfg : SkipConfig) (filterCfg : ReactionFilterConfig)
    (m : JsonVal) (ts : String) (st2 : BackfillState) :
    (repliesThen env args authedUserId skipCfg filterCfg m ts st2).1.processedMessages =
        st2.processedMessages ∧
    (repliesThen env args authedUserId skipCfg filterCfg m ts st2).1.pageStarts =
        st2.pageStarts ∧
    (addsInv args st2 →
      addsInv args (repliesThen env args authedUserId skipCfg filterCfg m ts st2).1) := by
  unfold repliesThen
  split
  · exact processReplies_inv env args authedUserId skipCfg filterCfg ts _ st2
  · exact ⟨rfl, rfl, id⟩

theorem msgTailContinue_inv (env : BackfillEnv) (args : BackfillArgs)
    (authedUserId : String) (skipCfg : SkipConfig) (filterCfg : ReactionFilterConfig)
    (m : JsonVal) (ts : String) (rest : List JsonVal) (st st2 : BackfillState)
    (ihrest : ∀ s : BackfillState,
      pmInv args s (processMessages env args authedUserId skipCfg filterCfg rest s))
    (h1 : st2.processedMessages = st.processedMessages + 1)
    (h2 : st2.pageStarts = st.pageStarts)
    (h3 : addsInv args st → addsInv args st2)
    (hnotex : msgBudgetExceeded args (st.processedMessages + 1) = false) :
    pmInv args st
      (match (repliesThen env args authedUserId skipCfg filterCfg m ts st2).2 with
       | some e =>
         ((repliesThen env args authedUserId skipCfg filterCfg m ts st2).1, true, some e)
       | none => processMessages env args authedUserId skipCfg filterCfg rest
           (repliesThen env args authedUserId skipCfg filterCfg m ts st2).1) := by
  have hrt := repliesThen_inv env args authedUserId skipCfg filterCfg m ts st2
  split
  · refine ⟨by rw [hrt.2.1, h2], fun hnone => absurd hnone (by simp),
      fun M hM hle => ?_⟩
    rw [hrt.1, h1]
    exact ⟨by omega, fun _ => msgBudget_le hnotex hM⟩
  · have hih := ihrest (repliesThen env args authedUserId skipCfg filterCfg m ts st2).1
    refine ⟨by rw [hih.1, hrt.2.1, h2],
      fun hnone hst => hih.2.1 hnone (hrt.2.2 (h3 hst)),
      fun M hM hle => ?_⟩
    exact hih.2.2 M hM (by rw [hrt.1, h1]; exact msgBudget_le hnotex hM)

theorem msgTailCheck_inv (env : BackfillEnv) (args : BackfillArgs)
    (authedUserId : String) (skipCfg : SkipConfig) (filterCfg : ReactionFilterConfig)
    (m : JsonVal) (ts : String) (rest : List JsonVal) (st st2 : BackfillState)
    (ihrest : ∀ s : BackfillState,
      pmInv args s (processMessages env args authedUserId skipCfg filterCfg rest s))
    (h1 : st2.processedMessages = st.processedMessages + 1)
    (h2 : st2.pageStarts = st.pageStarts)
    (hnotex : msgBudgetExceeded args (st.processedMessages + 1) = false) :
    pmInv args st
      (match (repliesThen env args authedUserId skipCfg filterCfg m ts st2).2 with
       | some e =>
         ((repliesThen env args authedUserId skipCfg filterCfg m ts st2).1, true, some e)
       | none =>
         if addBudgetReached args
             (repliesThen env args authedUserId skipCfg filterCfg m ts st2).1.totalAdds
             = true then
           ({ (repliesThen env args authedUserId skipCfg filterCfg m ts st2).1 with
              cursorCleared := true }, true, none)
         else processMessages env args authedUserId skipCfg filterCfg rest
           (repliesThen env args authedUserId skipCfg filterCfg m ts st2).1) := by
  have hrt := repliesThen_inv env args authedUserId skipCfg filterCfg m ts st2
  split
  · refine ⟨by rw [hrt.2.1, h2], fun hnone => absurd hnone (by simp),
      fun M hM hle => ?_⟩
    rw [hrt.1, h1]
    exact ⟨by omega, fun _ => msgBudget_le hnotex hM⟩
  · split
    · refine ⟨by rw [hrt.2.1, h2], fun _ _ hc => by simp at hc, fun M hM hle => ?_⟩
      constructor
      · show (repliesThen env args authedUserId skipCfg filterCfg m ts
          st2).1.processedMessages ≤ M + 1
        rw [hrt.1, h1]
        omega
      · intro hc
        simp at hc
    · rename_i hb
      have hih := ihrest (repliesThen env args authedUserId skipCfg filterCfg m ts st2).1
      refine ⟨by rw [hih.1, hrt.2.1, h2],
        fun hnone _ => hih.2.1 hnone (fun _ => Or.inr ?_),
        fun M hM hle => ?_⟩
      · simpa using hb
      · exact hih.2.2 M hM (by rw [hrt.1, h1]; exact msgBudget_le hnotex hM)

theorem processMessages_inv (env : BackfillEnv) (args : BackfillArgs)
    (authedUserId : String) (skipCfg : SkipConfig) (filterCfg : ReactionFilterConfig) :
    ∀ (msgs : List JsonVal) (st : BackfillState),
      pmInv args st (processMessages env args authedUserId skipCfg filterCfg msgs st) := by
  intro msgs
  induction msgs with
  | nil =>
    intro st
    refine ⟨rfl, fun _ => id, fun M hM hle => ⟨?_, fun _ => hle⟩⟩
    show st.processedMessages ≤ M + 1
    omega
  | cons m rest ih =>
    intro st
    unfold processMessages
    split
    · exact ih st
    · rename_i ts hts
      simp only []
      split
      · refine ⟨rfl, fun _ _ hc => by simp at hc, fun M hM hle => ?_⟩
        refine ⟨?_, fun hc => by simp at hc⟩
        show st.processedMessages + 1 ≤ M + 1
        omega
      · rename_i hnex
        have hnotex : msgBudgetExceeded args (st.processedMessages + 1) = false := by
          simpa using hnex
        split
        · -- message without reactions
          split
          · -- default-reactions mode for a non-own message
            split
            · -- the add-defaults call threw
              refine ⟨rfl, fun hnone => absurd hnone (by simp), fun M hM hle => ?_⟩
              refine ⟨?_, fun _ => ?_⟩
              · show st.processedMessages + 1 ≤ M + 1
                omega
              · show st.processedMessages + 1 ≤ M
                exact msgBudget_le hnotex hM
            · split
              · -- add budget reached right after the defaults call
                refine ⟨rfl, fun _ _ hc => by simp at hc, fun M hM hle => ?_⟩
                refine ⟨?_, fun hc => by simp at hc⟩
                show st.processedMessages + 1 ≤ M + 1
                omega
              · rename_i hb
                exact msgTailContinue_inv env args authedUserId skipCfg filterCfg m ts
                  rest st _ ih (by simp) (by simp)
                  (fun _ => fun _ => Or.inr (by simpa using hb)) hnotex
          · -- no defaults call: optional own-skip count, then replies
            exact msgTailContinue_inv env args authedUserId skipCfg filterCfg m ts
              rest st _ ih (by split <;> rfl) (by split <;> rfl)
              (by intro h; split <;> exact h) hnotex
        · -- message with reactions
          split
          · -- not own: mirror call
            split
            · -- the mirror call threw
              refine ⟨rfl, fun hnone => absurd hnone (by simp), fun M hM hle => ?_⟩
              refine ⟨?_, fun _ => ?_⟩
              · show st.processedMessages + 1 ≤ M + 1
                omega
              · show st.processedMessages + 1 ≤ M
                exact msgBudget_le hnotex hM
            · exact msgTailCheck_inv env args authedUserId skipCfg filterCfg m ts
                rest st _ ih (by simp) (by simp) hnotex
          · -- own message with reactions
            exact msgTailCheck_inv env args authedUserId skipCfg filterCfg m ts
              rest st _ ih rfl rfl hnotex

/-- What holds of the counters every time the scanner fetches a page: the adds
done so far are zero or still under the add budget, and the messages processed
so far are within the message budget. -/
def pageSnapOk (args : BackfillArgs) (s : Nat × Nat) : Prop :=
  (s.2 = 0 ∨ addBudgetReached args s.2 = false) ∧
  (∀ M, args.maxMessages = some M → s.1 ≤ M)

theorem runPages_inv (env : BackfillEnv) (args : BackfillArgs)
    (authedUserId : String) (skipCfg : SkipConfig) (filterCfg : ReactionFilterConfig) :
    ∀ (pages : List (List JsonVal)) (st : BackfillState),
      (st.totalAdds = 0 ∨ addBudgetReached args st.totalAdds = false) →
      (∀ M, args.maxMessages = some M → st.processedMessages ≤ M) →
      (∀ s ∈ st.pageStarts, pageSnapOk args s) →
      (∀ s ∈ (runPages env args authedUserId skipCfg filterCfg pages st).1.pageStarts,
        pageSnapOk args s) ∧
      (∀ M, args.maxMessages = some M →
        (runPages env args authedUserId skipCfg filterCfg pages
          st).1.processedMessages ≤ M + 1) := by
  intro pages
  induction pages with
  | nil =>
    intro st hadds hmsg hstarts
    exact ⟨hstarts, fun M hM => Nat.le_succ_of_le (hmsg M hM)⟩
  | cons pg rest ih =>
    intro st hadds hmsg hstarts
    have hpm := processMessages_inv env args authedUserId skipCfg filterCfg pg
      { st with cursorCleared := false, pageStarts := st.pageStarts ++ [(st.processedMessages, st.totalAdds)] }
    have hstarts0 : ∀ s ∈ st.pageStarts ++ [(st.processedMessages, st.totalAdds)],
        pageSnapOk args s := by
      intro s hs
      rcases List.mem_append.mp hs with h | h
      · exact hstarts s h
      · rcases List.mem_singleton.mp h with rfl
        exact ⟨hadds, hmsg⟩
    unfold runPages
    simp only []
    split
    · -- the page's scan threw: the state so far is returned
      rename_i e heq
      refine ⟨?_, ?_⟩
      · intro s hs
        rw [hpm.1] at hs
        exact hstarts0 s hs
      · intro M hM
        exact (hpm.2.2 M hM (hmsg M hM)).1
    · rename_i heq
      split
      · -- cursor cleared or no further page: stop here
        refine ⟨?_, ?_⟩
        · intro s hs
          rw [hpm.1] at hs
          exact hstarts0 s hs
        · intro M hM
          exact (hpm.2.2 M hM (hmsg M hM)).1
      · -- fetch the next page
        rename_i hcont
        have hclr : (processMessages env args authedUserId skipCfg filterCfg pg
            { st with cursorCleared := false, pageStarts := st.pageStarts ++ [(st.processedMessages, st.totalAdds)] }).1.cursorCleared = false := by
          have h12 : (processMessages env args authedUserId skipCfg filterCfg pg
              { st with cursorCleared := false, pageStarts := st.pageStarts ++ [(st.processedMessages, st.totalAdds)] }).1.cursorCleared = false ∧ ¬rest = [] := by
            simpa using hcont
          exact h12.1
        have hinv := hpm.2.1 heq (fun _ => hadds)
        refine ih _ (hinv hclr) ?_ ?_
        · intro M hM
          exact (hpm.2.2 M hM (hmsg M hM)).2 hclr
        · intro s hs
          rw [hpm.1] at hs
          exact hstarts0 s hs

/-- The scan of `c6Env` again, now under both budgets (`--max-messages 5`,
`--max-adds 1`). -/
def c6ArgsW : BackfillArgs := ⟨false, false, false, some 5, some 1, []⟩

/-- C6 (amended): in backfill mode the budget checks run only between
messages, never inside one, so the attempted-add total can pass
`maxReactionsAdds` within a single message (see the counterexample); what the
scanner does guarantee is that every history page is fetched with the adds
attempted so far zero or still strictly below `maxReactionsAdds` and with at
most `maxMessages` messages processed, and that the whole scan processes at
most `maxMessages + 1` messages. -/
theorem C6_budget_checked_between_messages (env : BackfillEnv) (args : BackfillArgs)
    (authedUserId : String) (skipCfg : SkipConfig) (filterCfg : ReactionFilterConfig)
    (M A : Nat) (hM : args.maxMessages = some M)
    (hA : args.maxReactionsAdds = some A) :
    (∀ s ∈ (runBackfill env args authedUserId skipCfg filterCfg).1.pageStarts,
      (s.2 = 0 ∨ s.2 < A) ∧ s.1 ≤ M) ∧
    (runBackfill env args authedUserId skipCfg
      filterCfg).1.processedMessages ≤ M + 1 := by
  have h := runPages_inv env args authedUserId skipCfg filterCfg env.pages
    initBackfillState (Or.inl rfl) (fun M2 _ => Nat.zero_le M2)
    (by intro s hs; simp [initBackfillState] at hs)
  constructor
  · intro s hs
    have hp := h.1 s hs
    refine ⟨?_, hp.2 M hM⟩
    rcases hp.1 with h0 | hb
    · exact Or.inl h0
    · refine Or.inr ?_
      unfold addBudgetReached at hb
      rw [hA] at hb
      simpa using hb
  · exact h.2 M hM

/-- C6 witness: the amended theorem applied to the concrete one-page scan. -/
theorem C6_witness :
    (∀ s ∈ (runBackfill c6Env c6ArgsW "me" (SkipConfig.mk "me" [] none [] false)
      (ReactionFilterConfig.mk [] [] none false)).1.pageStarts,
      (s.2 = 0 ∨ s.2 < 1) ∧ s.1 ≤ 5) ∧
    (runBackfill c6Env c6ArgsW "me" (SkipConfig.mk "me" [] none [] false)
      (ReactionFilterConfig.mk [] [] none false)).1.processedMessages ≤ 5 + 1 :=
  C6_budget_checked_between_messages c6Env c6ArgsW "me"
    (SkipConfig.mk "me" [] none [] false) (ReactionFilterConfig.mk [] [] none false)
    5 1 rfl rfl
